import Mathlib

/-!
# Risk-management service (`services/risk-management/main.go`)

A shallow embedding of the trade-evaluation handler and of the helpers it
calls, followed by theorems about the quota rules, the counter, the store
keys, the error paths and the audit events.

* `float64` arithmetic is not fixed to one number system: every definition
  takes a `Float64Ops`, which supplies the carrier, the operations the
  program applies to it (`+`, `*`, `>`) and its literals (`0`, `0.5`,
  `10000.0`), together with `strconv.ParseFloat` and the formatting go-redis
  applies to a `float64` argument.  Theorems hold for every such structure;
  the definitions run on `decimalOps`, an exact decimal instance, and on
  `binary64Ops`, IEEE 754 binary64 with round to nearest, ties to even.
* Redis, Kafka, the clock and the log are components of an explicit `World`
  that every function threads through.  A call to Redis or Kafka fails when
  the world schedules a fault for it; a failed `SET` leaves the keyspace as
  it was.  Every clock reading carries the day that `Format("2006-01-02")`
  renders for it.
* The handler takes the outcome of decoding the JSON body as its input.

-/

namespace RiskManagement

/-! ## Numbers -/

/-- The operations on `float64` the program uses. -/
structure Float64Ops where
  /-- Carrier of `float64`. -/
  F : Type
  /-- Addition `a + b`. -/
  add : F → F → F
  /-- Multiplication `a * b`. -/
  mul : F → F → F
  /-- Strict comparison `a > b`. -/
  gt : F → F → Bool
  /-- The literal `0`. -/
  lit0 : F
  /-- The literal `0.5`. -/
  litHalf : F
  /-- The literal `10000.0`. -/
  lit10000 : F
  /-- The call `strconv.ParseFloat(val, 64)`. -/
  parseFloat : String → Except String F
  /-- The text go-redis sends for a `float64` argument. -/
  formatFloat : F → String

/-! ## Data model -/

/-- Go `TradeRequest`. -/
structure TradeRequest (M : Float64Ops) where
  UserID : String
  Symbol : String
  Action : String
  Amount : M.F
  Price : M.F

/-- Go `RiskResponse`; `Reason` is omitted from the JSON when empty. -/
structure RiskResponse where
  Approved : Bool
  Reason : String
  deriving DecidableEq, Repr

/-- What the handler writes to the `http.ResponseWriter`: either
`http.Error(w, msg, status)` or the JSON encoding of a `RiskResponse`
(status 200). -/
inductive HttpResponse where
  | error (status : Nat) (msg : String)
  | json (body : RiskResponse)
  deriving DecidableEq, Repr

/-- One reading of `time.Now()`: its `Unix()` seconds and its rendering by
`Format("2006-01-02")`. -/
structure Instant where
  unix : Int
  day : String
  deriving DecidableEq, Repr

/-- A Redis string value with its expiry deadline (Unix seconds). -/
structure Entry where
  val : String
  expireAt : Option Int
  deriving DecidableEq, Repr

/-- A command sent to Redis. -/
inductive RedisCmd where
  | get (key : String)
  | set (key : String) (val : String) (ttl : Int)
  deriving DecidableEq, Repr

/-- The map marshalled by `logRiskEvent`. -/
structure RiskEvent (M : Float64Ops) where
  user_id : String
  symbol : String
  action : String
  amount : M.F
  price : M.F
  decision : String
  reason : String
  timestamp : Int

/-- A `kafka.Message`. -/
structure KafkaMessage (M : Float64Ops) where
  Key : String
  Value : RiskEvent M

/-- Everything outside the handler: the Redis keyspace, the clock, the
outcome of the coming Redis and Kafka round trips, and the traces of what
was sent and logged. -/
structure World (M : Float64Ops) where
  /-- Redis keyspace; the first binding of a key is the current one. -/
  store : List (String × Entry)
  /-- The latest clock reading. -/
  now : Instant
  /-- The coming readings of `time.Now()`, earliest first. -/
  ticks : List Instant
  /-- Outcome of the coming Redis round trips: `some e` fails with `e`. -/
  redisFaults : List (Option String)
  /-- Outcome of the coming Kafka writes: `some e` fails with `e`. -/
  kafkaFaults : List (Option String)
  /-- Every command sent to Redis, oldest first. -/
  redisLog : List RedisCmd
  /-- Every message handed to `WriteMessages`, oldest first. -/
  kafkaLog : List (KafkaMessage M)
  /-- The messages the broker accepted, oldest first. -/
  topic : List (KafkaMessage M)
  /-- Lines written by `log.Printf`, oldest first. -/
  logs : List String

/-- The call `time.Now()`: the next scheduled reading; when none is
scheduled the clock repeats its latest reading. -/
def timeNow {M : Float64Ops} (w : World M) : World M × Instant :=
  ({ w with now := w.ticks.headD w.now, ticks := w.ticks.tail }, w.ticks.headD w.now)

/-- The call `log.Printf`. -/
def logPrintf {M : Float64Ops} (w : World M) (line : String) : World M :=
  { w with logs := w.logs ++ [line] }

/-- Result of `rdb.Get(ctx, key).Result()`. -/
inductive GetResult where
  | redisNil
  | val (s : String)
  | err (e : String)
  deriving DecidableEq, Repr

/-- The error, if any, of the next round trip. -/
def nextFault : List (Option String) → Option String
  | some e :: _ => some e
  | _ => none

/-- Whether an entry has not expired at Unix time `t`. -/
def Entry.live (e : Entry) (t : Int) : Bool :=
  match e.expireAt with
  | none => true
  | some d => decide (t < d)

/-- The value a key holds at Unix time `t`. -/
def lookupLive (store : List (String × Entry)) (key : String) (t : Int) : Option String :=
  match store.lookup key with
  | none => none
  | some e => if e.live t then some e.val else none

/-- The call `rdb.Get(ctx, key).Result()`: the scheduled error, or the
value the key holds, expiry being judged at the latest clock reading. -/
def redisGet {M : Float64Ops} (w : World M) (key : String) : World M × GetResult :=
  ({ w with redisLog := w.redisLog ++ [RedisCmd.get key], redisFaults := w.redisFaults.tail },
    match nextFault w.redisFaults with
    | some e => GetResult.err e
    | none =>
      match lookupLive w.store key w.now.unix with
      | none => GetResult.redisNil
      | some v => GetResult.val v)

/-- The call `rdb.Set(ctx, key, value, ttl).Err()`, `ttl` in seconds; a
failed call leaves the keyspace as it was. -/
def redisSet {M : Float64Ops} (w : World M) (key : String) (value : String) (ttl : Int) :
    World M × Option String :=
  ({ w with redisLog := w.redisLog ++ [RedisCmd.set key value ttl],
            redisFaults := w.redisFaults.tail,
            store := match nextFault w.redisFaults with
              | some _ => w.store
              | none => (key, { val := value, expireAt := some (w.now.unix + ttl) }) :: w.store },
    nextFault w.redisFaults)

/-- The call `kafkaWriter.WriteMessages(ctx, msg)`. -/
def kafkaWrite {M : Float64Ops} (w : World M) (msg : KafkaMessage M) : World M × Option String :=
  ({ w with kafkaLog := w.kafkaLog ++ [msg], kafkaFaults := w.kafkaFaults.tail,
            topic := match nextFault w.kafkaFaults with
              | some _ => w.topic
              | none => w.topic ++ [msg] },
    nextFault w.kafkaFaults)

/-! ## The program -/

/-- Seconds in `24*time.Hour`. -/
def ttl24h : Int := 86400

/-- Key of a user's configured limit. -/
def limitKey (userID : String) : String := "user:" ++ userID ++ ":daily_limit"

/-- Key of a user's counter for one trading day. -/
def tradedKey (userID : String) (today : String) : String :=
  "user:" ++ userID ++ ":traded:" ++ today

/-- Go `getUserDailyLimit`. -/
def getUserDailyLimit (M : Float64Ops) (w : World M) (userID : String) :
    World M × Except String M.F :=
  let (w1, r) := redisGet w ("user:" ++ userID ++ ":daily_limit")
  (w1,
    match r with
    | GetResult.redisNil => Except.ok M.lit10000
    | GetResult.err e => Except.error e
    | GetResult.val v => M.parseFloat v)

/-- Go `getDailyTradedAmount`. -/
def getDailyTradedAmount (M : Float64Ops) (w : World M) (userID : String) :
    World M × Except String M.F :=
  let (w0, t) := timeNow w
  let today := t.day
  let key := "user:" ++ userID ++ ":traded:" ++ today
  let (w1, r) := redisGet w0 key
  (w1,
    match r with
    | GetResult.redisNil => Except.ok M.lit0
    | GetResult.err e => Except.error e
    | GetResult.val v => M.parseFloat v)

/-- Go `updateDailyTradedAmount`. -/
def updateDailyTradedAmount (M : Float64Ops) (w : World M) (userID : String) (amount : M.F) :
    World M × Option String :=
  let (w0, t) := timeNow w
  let today := t.day
  let key := "user:" ++ userID ++ ":traded:" ++ today
  redisSet w0 key (M.formatFloat amount) ttl24h

/-- Go `logRiskEvent`. -/
def logRiskEvent (M : Float64Ops) (w : World M) (trade : TradeRequest M) (decision : String)
    (reason : String) : World M :=
  let (w0, t) := timeNow w
  let event : RiskEvent M :=
    { user_id := trade.UserID, symbol := trade.Symbol, action := trade.Action,
      amount := trade.Amount, price := trade.Price, decision := decision, reason := reason,
      timestamp := t.unix }
  match kafkaWrite w0 { Key := trade.UserID, Value := event } with
  | (w1, some e) => logPrintf w1 ("Failed to write to Kafka: " ++ e)
  | (w1, none) => w1

/-- Go `evaluateTradeHandler`.  `body` is the outcome of
`json.NewDecoder(r.Body).Decode(&tradeReq)`: the decoder's error, or the
decoded request (a field absent from the JSON keeps its zero value). -/
def evaluateTradeHandler (M : Float64Ops) (w : World M) (body : Except String (TradeRequest M)) :
    World M × HttpResponse :=
  match body with
  | Except.error e => (w, HttpResponse.error 400 e)
  | Except.ok tradeReq =>
    match getUserDailyLimit M w tradeReq.UserID with
    | (w1, Except.error e) =>
      (logPrintf w1 ("Failed to get user limits: " ++ e),
        HttpResponse.error 500 "Failed to get user limits")
    | (w1, Except.ok dailyLimit) =>
      match getDailyTradedAmount M w1 tradeReq.UserID with
      | (w2, Except.error e) =>
        (logPrintf w2 ("Failed to get daily traded amount: " ++ e),
          HttpResponse.error 500 "Failed to get daily traded amount")
      | (w2, Except.ok dailyTraded) =>
        if M.gt (M.add dailyTraded tradeReq.Amount) dailyLimit then
          (logRiskEvent M w2 tradeReq "REJECTED" "Daily trading limit exceeded",
            HttpResponse.json { Approved := false, Reason := "Daily trading limit exceeded" })
        else if M.gt tradeReq.Amount (M.mul dailyLimit M.litHalf) then
          (logRiskEvent M w2 tradeReq "REJECTED" "Large trade requires manual approval",
            HttpResponse.json
              { Approved := false,
                Reason := "Trade amount exceeds 50% of daily limit, requires manual approval" })
        else
          let (w3, err) := updateDailyTradedAmount M w2 tradeReq.UserID
            (M.add dailyTraded tradeReq.Amount)
          let w4 := match err with
            | some e => logPrintf w3 ("Failed to update daily traded amount: " ++ e)
            | none => w3
          (logRiskEvent M w4 tradeReq "APPROVED" "",
            HttpResponse.json { Approved := true, Reason := "" })

/-- The message `logRiskEvent` hands to the Kafka writer when the clock
reads `timestamp`. -/
def riskMessage (M : Float64Ops) (trade : TradeRequest M) (decision reason : String)
    (timestamp : Int) : KafkaMessage M :=
  { Key := trade.UserID,
    Value := { user_id := trade.UserID, symbol := trade.Symbol, action := trade.Action,
               amount := trade.Amount, price := trade.Price, decision := decision,
               reason := reason, timestamp := timestamp } }

/-- Whether a text has the shape `YYYY-MM-DD` that `Format("2006-01-02")`
renders. -/
def isDay (s : String) : Bool :=
  match s.data with
  | [y1, y2, y3, y4, a, m1, m2, b, d1, d2] =>
    y1.isDigit && y2.isDigit && y3.isDigit && y4.isDigit && a == '-'
      && m1.isDigit && m2.isDigit && b == '-' && d1.isDigit && d2.isDigit
  | _ => false

/-- The world as a later call finds it when its clock reads `t` and Redis
answers. -/
def atInstant {M : Float64Ops} (w : World M) (t : Instant) : World M :=
  { w with now := t, ticks := [t], redisFaults := [] }

/-! ## An exact decimal instance -/

/-- A decimal number `mant / 10 ^ scale`. -/
structure Dec where
  mant : Int
  scale : Nat
  deriving DecidableEq, Repr

/-- Drop trailing zero digits of the fraction. -/
def Dec.normalize : Int → Nat → Dec
  | m, 0 => { mant := m, scale := 0 }
  | m, k + 1 => if m % 10 = 0 then Dec.normalize (m / 10) k else { mant := m, scale := k + 1 }

/-- Exact sum. -/
def Dec.add (a b : Dec) : Dec :=
  Dec.normalize (a.mant * 10 ^ b.scale + b.mant * 10 ^ a.scale) (a.scale + b.scale)

/-- Exact product. -/
def Dec.mul (a b : Dec) : Dec :=
  Dec.normalize (a.mant * b.mant) (a.scale + b.scale)

/-- Strict comparison `a > b`. -/
def Dec.gt (a b : Dec) : Bool :=
  decide (b.mant * 10 ^ a.scale < a.mant * 10 ^ b.scale)

/-- The decimal digit `d % 10` as a character. -/
def digitChar (d : Nat) : Char := Char.ofNat (48 + d % 10)

/-- The value of a decimal digit character. -/
def digitVal (c : Char) : Nat := c.toNat - 48

/-- Read a run of decimal digits, continuing from `acc`. -/
def readDigits (acc : Nat) (cs : List Char) : Nat :=
  cs.foldl (fun n c => n * 10 + digitVal c) acc

/-- The lowest `k` decimal digits of `n`, most significant first. -/
def showFixed : Nat → Nat → List Char
  | 0, _ => []
  | k + 1, n => showFixed k (n / 10) ++ [digitChar n]

/-- Decimal digits of `n` without leading zeros; `fuel` bounds their number. -/
def showNatAux : Nat → Nat → List Char
  | 0, _ => []
  | fuel + 1, n => if n < 10 then [digitChar n] else showNatAux fuel (n / 10) ++ [digitChar n]

/-- Decimal digits of `n`. -/
def showNat (n : Nat) : List Char := showNatAux (n + 1) n

/-- Plain decimal notation: sign, integer digits and, when `scale > 0`,
a point and `scale` fraction digits. -/
def showDec (x : Dec) : List Char :=
  let a := x.mant.natAbs
  let sign := if x.mant < 0 then ['-'] else []
  if x.scale = 0 then sign ++ showNat a
  else sign ++ (showNat (a / 10 ^ x.scale) ++ '.' :: showFixed x.scale a)

/-- Read `digits[.digits]`; gives the digits read as one number and the
number of fraction digits. -/
def parseUnsigned (cs : List Char) : Option Dec :=
  let ip := cs.takeWhile Char.isDigit
  match cs.dropWhile Char.isDigit with
  | [] => if ip.isEmpty then none else some { mant := (readDigits 0 ip : Nat), scale := 0 }
  | c :: fp =>
    if c = '.' && fp.all Char.isDigit && !(ip.isEmpty && fp.isEmpty) then
      some { mant := (readDigits 0 (ip ++ fp) : Nat), scale := fp.length }
    else none

/-- Read plain decimal notation with an optional sign. -/
def parseDec (cs : List Char) : Option Dec :=
  if cs.head? = some '-' then
    (parseUnsigned cs.tail).map fun x => { mant := -x.mant, scale := x.scale }
  else if cs.head? = some '+' then parseUnsigned cs.tail
  else parseUnsigned cs

/-- Exact decimal arithmetic with plain decimal notation.  On the whole
numbers and the halves that the scenarios below use it agrees with
`float64`, with `strconv.ParseFloat` and with the shortest `'f'` text that
go-redis writes.  Exponents, hexadecimal floats, infinities and NaN are
not part of this instance: their texts are reported as syntax errors. -/
def decimalOps : Float64Ops where
  F := Dec
  add := Dec.add
  mul := Dec.mul
  gt := Dec.gt
  lit0 := { mant := 0, scale := 0 }
  litHalf := { mant := 5, scale := 1 }
  lit10000 := { mant := 10000, scale := 0 }
  parseFloat := fun s =>
    match parseDec s.data with
    | some x => Except.ok x
    | none => Except.error "strconv.ParseFloat: invalid syntax"
  formatFloat := fun x => String.mk (showDec x)

/-- An integer amount. -/
def dec (n : Int) : decimalOps.F := { mant := n, scale := 0 }

/-- A world with the given keyspace and clock reading, no scheduled
faults and empty traces. -/
def quietWorld (M : Float64Ops) (store : List (String × Entry)) (now : Instant) : World M :=
  { store := store, now := now, ticks := [], redisFaults := [], kafkaFaults := [],
    redisLog := [], kafkaLog := [], topic := [], logs := [] }

/-! ## A binary64 instance -/

/-- The exact value of a decimal. -/
def Dec.toRat (x : Dec) : ℚ := (x.mant : ℚ) / (10 : ℚ) ^ x.scale

/-- A `float64`: a finite value given by its exact decimal expansion, an
infinity, or NaN.  The two zeros are not told apart. -/
inductive B64 where
  | fin (x : Dec)
  | inf (neg : Bool)
  | nan
  deriving DecidableEq, Repr

/-- The number of binary digits of `n`, 64 at a time while there are that
many; `fuel` bounds the number of rounds. -/
def bitLengthAux : Nat → Nat → Nat
  | 0, _ => 0
  | fuel + 1, n =>
    if n = 0 then 0
    else if 2 ^ 64 ≤ n then bitLengthAux fuel (n / 2 ^ 64) + 64
    else bitLengthAux fuel (n / 2) + 1

/-- The number of binary digits of `n`. -/
def bitLength (n : Nat) : Nat := bitLengthAux n n

/-- The exponent of the leading binary digit of `n / d`, for positive `n`
and `d`. -/
def floorLog2 (n d : Nat) : Int :=
  let p0 : Int := (bitLength n : Int) - (bitLength d : Int)
  if d * 2 ^ p0.toNat ≤ n * 2 ^ (-p0).toNat then p0 else p0 - 1

/-- The `float64` nearest to `n / d` (negated when `neg`), ties to the even
significand: 53 binary digits, least exponent -1074, infinity when the
rounded value has more than 1024 binary digits before the point. -/
def round64 (neg : Bool) (n d : Nat) : B64 :=
  if n = 0 then B64.fin { mant := 0, scale := 0 }
  else
    let p := floorLog2 n d
    let u : Int := max (p - 52) (-1074)
    let num := n * 2 ^ (-u).toNat
    let den := d * 2 ^ u.toNat
    let q := num / den
    let r := num % den
    let q1 := if den < 2 * r ∨ (2 * r = den ∧ q % 2 = 1) then q + 1 else q
    if 1024 < u + (bitLength q1 : Int) then B64.inf neg
    else
      B64.fin (Dec.normalize
        ((if neg then -1 else 1) * ((q1 * 2 ^ u.toNat * 5 ^ (-u).toNat : Nat) : Int))
        (-u).toNat)

/-- Round an exact decimal to `float64`. -/
def B64.ofDec (x : Dec) : B64 :=
  round64 (decide (x.mant < 0)) x.mant.natAbs (10 ^ x.scale)

/-- The sum `a + b` of IEEE 754: the exact sum, rounded. -/
def B64.add : B64 → B64 → B64
  | B64.fin a, B64.fin b => B64.ofDec (Dec.add a b)
  | B64.fin _, B64.inf s => B64.inf s
  | B64.inf s, B64.fin _ => B64.inf s
  | B64.inf s, B64.inf t => if s = t then B64.inf s else B64.nan
  | _, _ => B64.nan

/-- The product `a * b` of IEEE 754: the exact product, rounded. -/
def B64.mul : B64 → B64 → B64
  | B64.fin a, B64.fin b => B64.ofDec (Dec.mul a b)
  | B64.fin a, B64.inf s =>
    if a.mant = 0 then B64.nan else B64.inf (xor (decide (a.mant < 0)) s)
  | B64.inf s, B64.fin b =>
    if b.mant = 0 then B64.nan else B64.inf (xor s (decide (b.mant < 0)))
  | B64.inf s, B64.inf t => B64.inf (xor s t)
  | _, _ => B64.nan

/-- The comparison `a > b` of IEEE 754: false when either side is NaN. -/
def B64.gt : B64 → B64 → Bool
  | B64.fin a, B64.fin b => Dec.gt a b
  | B64.fin _, B64.inf s => s
  | B64.inf s, B64.fin _ => !s
  | B64.inf s, B64.inf t => !s && t
  | _, _ => false

/-- Split a text at its first `e` or `E`. -/
def splitExponent : List Char → List Char × Option (List Char)
  | [] => ([], none)
  | c :: cs =>
    if c = 'e' ∨ c = 'E' then ([], some cs)
    else ((c :: (splitExponent cs).1), (splitExponent cs).2)

/-- Read a decimal exponent: an optional sign and at least one digit. -/
def parseExponent (cs : List Char) : Option Int :=
  let neg := decide (cs.head? = some '-')
  let ds := if cs.head? = some '-' ∨ cs.head? = some '+' then cs.tail else cs
  if ds.isEmpty || !ds.all Char.isDigit then none
  else some (if neg then -((readDigits 0 ds : Nat) : Int) else ((readDigits 0 ds : Nat) : Int))

/-- The decimal floating-point texts of `strconv.ParseFloat`: the
infinities and NaN in any letter case, and decimal numbers with an optional
exponent, rounded to the nearest `float64`; a number that rounds to an
infinity is a range error.  Hexadecimal texts are reported as syntax
errors. -/
def B64.parse (s : String) : Except String B64 :=
  let lower := s.data.map Char.toLower
  let unsigned := if lower.head? = some '-' ∨ lower.head? = some '+' then lower.tail else lower
  if lower = "nan".data then Except.ok B64.nan
  else if unsigned = "inf".data ∨ unsigned = "infinity".data then
    Except.ok (B64.inf (decide (lower.head? = some '-')))
  else
    match parseDec (splitExponent s.data).1,
        (match (splitExponent s.data).2 with
          | none => some 0
          | some ex => parseExponent ex) with
    | some x, some e =>
      match round64 (decide (s.data.head? = some '-')) (x.mant.natAbs * 10 ^ e.toNat)
          (10 ^ x.scale * 10 ^ (-e).toNat) with
      | B64.inf _ => Except.error "strconv.ParseFloat: value out of range"
      | f => Except.ok f
    | _, _ => Except.error "strconv.ParseFloat: invalid syntax"

/-- The text of a `float64` in plain decimal notation.  A finite value is
written with all its digits; go-redis writes the shortest text that parses
back to the same value, which is this text for every whole number below
`2 ^ 53`. -/
def B64.format : B64 → String
  | B64.fin x => String.mk (showDec x)
  | B64.inf false => "+Inf"
  | B64.inf true => "-Inf"
  | B64.nan => "NaN"

/-- IEEE 754 binary64 arithmetic with round to nearest, ties to even. -/
def binary64Ops : Float64Ops where
  F := B64
  add := B64.add
  mul := B64.mul
  gt := B64.gt
  lit0 := B64.fin { mant := 0, scale := 0 }
  litHalf := B64.fin { mant := 5, scale := 1 }
  lit10000 := B64.fin { mant := 10000, scale := 0 }
  parseFloat := B64.parse
  formatFloat := B64.format

/-- The exact value of a finite `float64`; 0 stands in for the infinities
and NaN, which have none. -/
def B64.toRat : B64 → ℚ
  | B64.fin x => x.toRat
  | _ => 0

/-! ## The decision rules of the specification -/

/-- Reason codes of a `RiskDecision`. -/
inductive Reason where
  | NONE
  | DAILY_LIMIT_EXCEEDED
  | LARGE_TRADE_MANUAL_REVIEW
  deriving DecidableEq, Repr

/-- The `RiskDecision` of the specification. -/
structure RiskDecision where
  approved : Bool
  reason : Reason
  deriving DecidableEq, Repr

/-- The rules of `Evaluate(limit, already_traded, trade_amount)`, written
from the words of the specification and not from the code: exact
arithmetic on the amounts, the rules in order, first match wins, strict
comparisons, the threshold of the second rule being `limit * 0.5`. -/
def Evaluate (limit already_traded trade_amount : ℚ) : RiskDecision :=
  if already_traded + trade_amount > limit then
    { approved := false, reason := Reason.DAILY_LIMIT_EXCEEDED }
  else if trade_amount > limit * (1 / 2) then
    { approved := false, reason := Reason.LARGE_TRADE_MANUAL_REVIEW }
  else
    { approved := true, reason := Reason.NONE }

/-- The text the handler returns for a reason code. -/
def Reason.text : Reason → String
  | Reason.NONE => ""
  | Reason.DAILY_LIMIT_EXCEEDED => "Daily trading limit exceeded"
  | Reason.LARGE_TRADE_MANUAL_REVIEW =>
    "Trade amount exceeds 50% of daily limit, requires manual approval"

/-- The response that carries a decision. -/
def RiskDecision.response (d : RiskDecision) : HttpResponse :=
  HttpResponse.json { Approved := d.approved, Reason := d.reason.text }

/-! ## Runs of several requests -/

/-- Whether a response approves the trade. -/
def HttpResponse.approved : HttpResponse → Bool
  | HttpResponse.json r => r.Approved
  | HttpResponse.error _ _ => false

/-- Handle decoded requests one after another; gives the final world and
the responses in order. -/
def handleAll (M : Float64Ops) (w : World M) : List (TradeRequest M) → World M × List HttpResponse
  | [] => (w, [])
  | req :: rest =>
    ((handleAll M (evaluateTradeHandler M w (Except.ok req)).1 rest).1,
      (evaluateTradeHandler M w (Except.ok req)).2
        :: (handleAll M (evaluateTradeHandler M w (Except.ok req)).1 rest).2)

/-- Add to `total`, in order, the amounts of the requests whose response
approves. -/
def approvedFrom (M : Float64Ops) (total : M.F) :
    List (TradeRequest M) → List HttpResponse → M.F
  | req :: reqs, r :: rs =>
    approvedFrom M (if r.approved then M.add total req.Amount else total) reqs rs
  | _, _ => total

/-- Sum of the amounts of the approved requests. -/
def approvedTotal (M : Float64Ops) (reqs : List (TradeRequest M)) (rs : List HttpResponse) : M.F :=
  approvedFrom M M.lit0 reqs rs

/-- What a read of a key gives when Redis answers: the parse of the stored
text, or `dflt` when the key is unset. -/
def readOr (M : Float64Ops) (dflt : M.F) (stored : Option String) : Except String M.F :=
  match stored with
  | none => Except.ok dflt
  | some v => M.parseFloat v

/-- A working store during the 24 hours from `t0` on trading day `D`: no
Redis call fails, every clock reading falls on `D` within the window, the
counter of `(U, D)` reads `total` and the limit of `U` reads `lim`
throughout the window. -/
def Steady (M : Float64Ops) (U D : String) (t0 : Int) (lim : Except String M.F) (total : M.F)
    (w : World M) : Prop :=
  w.redisFaults = []
    ∧ (∀ t ∈ w.now :: w.ticks, t.day = D ∧ t0 ≤ t.unix ∧ t.unix < t0 + ttl24h)
    ∧ (∀ t : Int, t0 ≤ t → t < t0 + ttl24h →
        readOr M M.lit0 (lookupLive w.store (tradedKey U D) t) = Except.ok total)
    ∧ (∀ t : Int, t0 ≤ t → t < t0 + ttl24h →
        readOr M M.lit10000 (lookupLive w.store (limitKey U) t) = lim)

/-! ## Requests handled concurrently -/

/-- Where a request stands between two round trips of its handler. -/
inductive Stage (M : Float64Ops) where
  | received (req : TradeRequest M)
  | limitRead (req : TradeRequest M) (dailyLimit : M.F)
  | tradedRead (req : TradeRequest M) (dailyLimit dailyTraded : M.F)
  | committed (req : TradeRequest M)
  | responded (resp : HttpResponse)

/-- The piece of `evaluateTradeHandler` from one stage up to and
including its next round trip: the read of the limit, the read of the
counter, the decision with either the commit or the publication of the
rejection, the publication of the approval.  A request that takes its
steps without interruption goes through `evaluateTradeHandler`
(`steps_eq_evaluateTradeHandler`). -/
def Stage.step (M : Float64Ops) (w : World M) : Stage M → World M × Stage M
  | Stage.received tradeReq =>
    match (getUserDailyLimit M w tradeReq.UserID).2 with
    | Except.error e =>
      (logPrintf (getUserDailyLimit M w tradeReq.UserID).1 ("Failed to get user limits: " ++ e),
        Stage.responded (HttpResponse.error 500 "Failed to get user limits"))
    | Except.ok dailyLimit =>
      ((getUserDailyLimit M w tradeReq.UserID).1, Stage.limitRead tradeReq dailyLimit)
  | Stage.limitRead tradeReq dailyLimit =>
    match (getDailyTradedAmount M w tradeReq.UserID).2 with
    | Except.error e =>
      (logPrintf (getDailyTradedAmount M w tradeReq.UserID).1
          ("Failed to get daily traded amount: " ++ e),
        Stage.responded (HttpResponse.error 500 "Failed to get daily traded amount"))
    | Except.ok dailyTraded =>
      ((getDailyTradedAmount M w tradeReq.UserID).1,
        Stage.tradedRead tradeReq dailyLimit dailyTraded)
  | Stage.tradedRead tradeReq dailyLimit dailyTraded =>
    if M.gt (M.add dailyTraded tradeReq.Amount) dailyLimit then
      (logRiskEvent M w tradeReq "REJECTED" "Daily trading limit exceeded",
        Stage.responded
          (HttpResponse.json { Approved := false, Reason := "Daily trading limit exceeded" }))
    else if M.gt tradeReq.Amount (M.mul dailyLimit M.litHalf) then
      (logRiskEvent M w tradeReq "REJECTED" "Large trade requires manual approval",
        Stage.responded
          (HttpResponse.json
            { Approved := false,
              Reason := "Trade amount exceeds 50% of daily limit, requires manual approval" }))
    else
      (match (updateDailyTradedAmount M w tradeReq.UserID
            (M.add dailyTraded tradeReq.Amount)).2 with
        | some e =>
          logPrintf (updateDailyTradedAmount M w tradeReq.UserID
            (M.add dailyTraded tradeReq.Amount)).1
            ("Failed to update daily traded amount: " ++ e)
        | none =>
          (updateDailyTradedAmount M w tradeReq.UserID (M.add dailyTraded tradeReq.Amount)).1,
        Stage.committed tradeReq)
  | Stage.committed tradeReq =>
    (logRiskEvent M w tradeReq "APPROVED" "",
      Stage.responded (HttpResponse.json { Approved := true, Reason := "" }))
  | Stage.responded resp => (w, Stage.responded resp)

/-- The response of a request that has been answered. -/
def Stage.response (M : Float64Ops) : Stage M → Option HttpResponse
  | Stage.responded resp => some resp
  | _ => none

/-- Let request number `i` run up to its next round trip. -/
def stepAt (M : Float64Ops) (s : World M × List (Stage M)) (i : Nat) :
    World M × List (Stage M) :=
  match s.2[i]? with
  | none => s
  | some st => ((Stage.step M s.1 st).1, s.2.set i (Stage.step M s.1 st).2)

/-- Run the requests concurrently: `schedule` names, one round trip at a
time, the request that moves next. -/
def interleave (M : Float64Ops) (w : World M) (reqs : List (TradeRequest M))
    (schedule : List Nat) : World M × List (Stage M) :=
  schedule.foldl (stepAt M) (w, reqs.map Stage.received)

/-- The state of a concurrent run when the first `j` steps of the
schedule have been taken. -/
def stateAt (M : Float64Ops) (w : World M) (reqs : List (TradeRequest M)) (schedule : List Nat)
    (j : Nat) : World M × List (Stage M) :=
  interleave M w reqs (schedule.take j)

/-- Request number `i`, which is `r` and holds `limit`, took its read of
the counter as one of the first `j` steps, and that read gave `traded`. -/
def ReadBefore (M : Float64Ops) (w : World M) (reqs : List (TradeRequest M))
    (schedule : List Nat) (j i : Nat) (r : TradeRequest M) (limit traded : M.F) : Prop :=
  ∃ jr : Nat, jr < j ∧ schedule[jr]? = some i
    ∧ (stateAt M w reqs schedule jr).2[i]? = some (Stage.limitRead r limit)
    ∧ (getDailyTradedAmount M (stateAt M w reqs schedule jr).1 r.UserID).2 = Except.ok traded

/-- The command `cmd` is the commit of request number `i`, taken as one of
the first `j` steps: the request is `r`, the limit it holds is the
configured one, the total it holds is the one its own read of the counter
gave, both rules passed on them, and `cmd` sets the counter to that total
plus the amount of `r`. -/
def CommittedBefore (M : Float64Ops) (w : World M) (reqs : List (TradeRequest M))
    (schedule : List Nat) (U : String) (lim : Except String M.F) (j : Nat) (cmd : RedisCmd) :
    Prop :=
  ∃ (i : Nat) (r : TradeRequest M) (limit traded : M.F) (jc : Nat),
    jc < j ∧ schedule[jc]? = some i ∧ reqs[i]? = some r
      ∧ (stateAt M w reqs schedule jc).2[i]? = some (Stage.tradedRead r limit traded)
      ∧ ReadBefore M w reqs schedule jc i r limit traded
      ∧ lim = Except.ok limit
      ∧ M.gt (M.add traded r.Amount) limit = false
      ∧ M.gt r.Amount (M.mul limit M.litHalf) = false
      ∧ cmd = RedisCmd.set
          (tradedKey U ((stateAt M w reqs schedule jc).1.ticks.headD
            (stateAt M w reqs schedule jc).1.now).day)
          (M.formatFloat (M.add traded r.Amount)) ttl24h
      ∧ (stateAt M w reqs schedule (jc + 1)).1.redisLog
          = (stateAt M w reqs schedule jc).1.redisLog ++ [cmd]

/-- What request number `i` holds after `j` steps: it is request `i` of
`reqs`, the limit it read is the configured one, and the total it read is
what its own read of the counter gave. -/
def Stage.tracked (M : Float64Ops) (w : World M) (reqs : List (TradeRequest M))
    (schedule : List Nat) (lim : Except String M.F) (j i : Nat) : Stage M → Prop
  | Stage.received req => reqs[i]? = some req
  | Stage.limitRead req dailyLimit => reqs[i]? = some req ∧ lim = Except.ok dailyLimit
  | Stage.tradedRead req dailyLimit dailyTraded =>
    reqs[i]? = some req ∧ lim = Except.ok dailyLimit
      ∧ ReadBefore M w reqs schedule j i req dailyLimit dailyTraded
  | Stage.committed req => reqs[i]? = some req
  | Stage.responded _ => True

/-- The invariant of a concurrent run for user `U` after `j` steps: clock
readings render as days, the limit of `U` reads `lim` at all times, every
request is tracked, and every `SET` sent so far is the commit of one of
the requests. -/
def Tracked (M : Float64Ops) (w : World M) (reqs : List (TradeRequest M)) (schedule : List Nat)
    (U : String) (lim : Option String) (j : Nat) : Prop :=
  (∀ t ∈ (stateAt M w reqs schedule j).1.now :: (stateAt M w reqs schedule j).1.ticks,
      isDay t.day = true)
    ∧ (∀ t : Int, lookupLive (stateAt M w reqs schedule j).1.store (limitKey U) t = lim)
    ∧ (∀ (i : Nat) (st : Stage M), (stateAt M w reqs schedule j).2[i]? = some st →
        Stage.tracked M w reqs schedule (readOr M M.lit10000 lim) j i st)
    ∧ (∀ cmd ∈ (stateAt M w reqs schedule j).1.redisLog,
        cmd ∈ w.redisLog ∨ (∀ key v ttl, cmd ≠ RedisCmd.set key v ttl)
          ∨ CommittedBefore M w reqs schedule U (readOr M M.lit10000 lim) j cmd)

/-! ## Scenarios -/

/-- The instant 1 March 2024, 08:00:00 UTC. -/
def morning : Instant := { unix := 1709280000, day := "2024-03-01" }

/-- The instant 1 March 2024, 23:59:59 UTC. -/
def beforeMidnight : Instant := { unix := 1709337599, day := "2024-03-01" }

/-- The instant 2 March 2024, 00:00:01 UTC. -/
def afterMidnight : Instant := { unix := 1709337601, day := "2024-03-02" }

/-- An order of user `u1` for `amount` units. -/
def order (amount : Int) : TradeRequest decimalOps :=
  { UserID := "u1", Symbol := "BTC-USD", Action := "buy", Amount := dec amount, Price := dec 1 }

/-- A quiet world on the morning of 1 March 2024 in which `u1` has no
configured limit and no counter. -/
def freshWorld : World decimalOps := quietWorld decimalOps [] morning

/-- A quiet world on the morning of 1 March 2024 in which the counter of
`u1` for the day holds `traded`. -/
def tradedWorld (traded : String) : World decimalOps :=
  quietWorld decimalOps
    [("user:u1:traded:2024-03-01", { val := traded, expireAt := some 1709366400 })] morning

/-- A quiet world on the morning of 1 March 2024 in which the limit key
of `u1` holds `limit`. -/
def limitWorld (limit : String) : World decimalOps :=
  quietWorld decimalOps [("user:u1:daily_limit", { val := limit, expireAt := none })] morning

/-- The fresh world with the outcomes of the coming Redis round trips
scheduled. -/
def faultyWorld (redisFaults : List (Option String)) : World decimalOps :=
  { freshWorld with redisFaults := redisFaults }

/-- The counter of `u1` holds 3000 shortly before midnight; the clock
passes midnight between the next two readings. -/
def midnightWorld : World decimalOps :=
  { quietWorld decimalOps
      [("user:u1:traded:2024-03-01", { val := "3000", expireAt := some 1709366400 })]
      beforeMidnight with
    ticks := [beforeMidnight, afterMidnight, afterMidnight] }

/-- Four orders of `u1`, in order of arrival. -/
def dayOrders : List (TradeRequest decimalOps) := [order 4000, order 6000, order 5000, order 2000]

/-- Three orders of 4000 by `u1`. -/
def threeOrders : List (TradeRequest decimalOps) := [order 4000, order 4000, order 4000]

/-- Every request makes its next round trip before any request makes the
one after. -/
def roundRobin : List Nat := [0, 1, 2, 0, 1, 2, 0, 1, 2, 0, 1, 2]

/-- The fresh world with a clock reading scheduled every ten minutes from
08:00 on 1 March 2024. -/
def dayWorld : World decimalOps :=
  { freshWorld with
    ticks := (List.range 12).map fun i =>
      { unix := 1709280000 + 600 * (i : Int), day := "2024-03-01" } }

/-- An order of user `u1` that sells a negative amount at price 0. -/
def negativeOrder : TradeRequest decimalOps :=
  { UserID := "u1", Symbol := "BTC-USD", Action := "sell", Amount := dec (-100), Price := dec 0 }

/-- The number `2 ^ 53` as a `float64`. -/
def twoTo53 : binary64Ops.F := B64.fin { mant := 9007199254740992, scale := 0 }

/-- A whole number as a `float64`. -/
def whole (n : Int) : binary64Ops.F := B64.ofDec { mant := n, scale := 0 }

/-- An order of user `u1` for `amount`, in binary64. -/
def floatOrder (amount : binary64Ops.F) : TradeRequest binary64Ops :=
  { UserID := "u1", Symbol := "BTC-USD", Action := "buy", Amount := amount, Price := whole 1 }

/-- A quiet binary64 world on the morning of 1 March 2024 in which the
limit key of `u1` holds `limit` and its counter for the day holds
`traded`. -/
def floatWorld (limit traded : String) : World binary64Ops :=
  quietWorld binary64Ops
    [("user:u1:daily_limit", { val := limit, expireAt := none }),
      ("user:u1:traded:2024-03-01", { val := traded, expireAt := some 1709366400 })] morning

/-- The `float64` nearest to one tenth. -/
def tenth : binary64Ops.F :=
  B64.fin { mant := 1000000000000000055511151231257827021181583404541015625, scale := 55 }

/-! ## Theorems -/

/-! ### The helpers, one field at a time -/

theorem getUserDailyLimit_fst (M : Float64Ops) (w : World M) (u : String) :
    (getUserDailyLimit M w u).1
      = { w with redisLog := w.redisLog ++ [RedisCmd.get (limitKey u)],
                 redisFaults := w.redisFaults.tail } := rfl

theorem getUserDailyLimit_snd (M : Float64Ops) (w : World M) (u : String) :
    (getUserDailyLimit M w u).2
      = match nextFault w.redisFaults with
        | some e => Except.error e
        | none =>
          match lookupLive w.store (limitKey u) w.now.unix with
          | none => Except.ok M.lit10000
          | some v => M.parseFloat v := by
  simp only [getUserDailyLimit, redisGet, limitKey]
  cases nextFault w.redisFaults with
  | some e => rfl
  | none => cases lookupLive w.store ("user:" ++ u ++ ":daily_limit") w.now.unix <;> rfl

theorem getDailyTradedAmount_fst (M : Float64Ops) (w : World M) (u : String) :
    (getDailyTradedAmount M w u).1
      = { w with now := w.ticks.headD w.now, ticks := w.ticks.tail,
                 redisLog := w.redisLog ++ [RedisCmd.get (tradedKey u (w.ticks.headD w.now).day)],
                 redisFaults := w.redisFaults.tail } := rfl

theorem getDailyTradedAmount_snd (M : Float64Ops) (w : World M) (u : String) :
    (getDailyTradedAmount M w u).2
      = match nextFault w.redisFaults with
        | some e => Except.error e
        | none =>
          match lookupLive w.store (tradedKey u (w.ticks.headD w.now).day)
              (w.ticks.headD w.now).unix with
          | none => Except.ok M.lit0
          | some v => M.parseFloat v := by
  simp only [getDailyTradedAmount, redisGet, timeNow, tradedKey]
  cases nextFault w.redisFaults with
  | some e => rfl
  | none =>
    cases lookupLive w.store ("user:" ++ u ++ ":traded:" ++ (w.ticks.headD w.now).day)
      (w.ticks.headD w.now).unix <;> rfl

theorem updateDailyTradedAmount_snd (M : Float64Ops) (w : World M) (u : String) (x : M.F) :
    (updateDailyTradedAmount M w u x).2 = nextFault w.redisFaults := rfl

theorem updateDailyTradedAmount_fst (M : Float64Ops) (w : World M) (u : String) (x : M.F) :
    (updateDailyTradedAmount M w u x).1
      = { w with now := w.ticks.headD w.now, ticks := w.ticks.tail,
                 redisLog := w.redisLog ++
                   [RedisCmd.set (tradedKey u (w.ticks.headD w.now).day) (M.formatFloat x) ttl24h],
                 redisFaults := w.redisFaults.tail,
                 store := match nextFault w.redisFaults with
                   | some _ => w.store
                   | none =>
                     (tradedKey u (w.ticks.headD w.now).day,
                       { val := M.formatFloat x,
                         expireAt := some ((w.ticks.headD w.now).unix + ttl24h) }) :: w.store } :=
  rfl

/-- The world `logRiskEvent` leaves behind. -/
theorem logRiskEvent_eq (M : Float64Ops) (w : World M) (trade : TradeRequest M)
    (decision reason : String) :
    logRiskEvent M w trade decision reason
      = { w with now := w.ticks.headD w.now, ticks := w.ticks.tail,
                 kafkaFaults := w.kafkaFaults.tail,
                 kafkaLog := w.kafkaLog ++
                   [riskMessage M trade decision reason (w.ticks.headD w.now).unix],
                 topic := match nextFault w.kafkaFaults with
                   | some _ => w.topic
                   | none => w.topic ++
                     [riskMessage M trade decision reason (w.ticks.headD w.now).unix],
                 logs := match nextFault w.kafkaFaults with
                   | some e => w.logs ++ ["Failed to write to Kafka: " ++ e]
                   | none => w.logs } := by
  simp only [logRiskEvent, kafkaWrite, timeNow, logPrintf, riskMessage]
  cases nextFault w.kafkaFaults <;> rfl

theorem logRiskEvent_kafkaLog (M : Float64Ops) (w : World M) (trade : TradeRequest M)
    (decision reason : String) :
    (logRiskEvent M w trade decision reason).kafkaLog
      = w.kafkaLog ++ [riskMessage M trade decision reason (w.ticks.headD w.now).unix] := by
  rw [logRiskEvent_eq]

theorem logRiskEvent_store (M : Float64Ops) (w : World M) (trade : TradeRequest M)
    (decision reason : String) :
    (logRiskEvent M w trade decision reason).store = w.store := by
  rw [logRiskEvent_eq]

theorem logRiskEvent_redisLog (M : Float64Ops) (w : World M) (trade : TradeRequest M)
    (decision reason : String) :
    (logRiskEvent M w trade decision reason).redisLog = w.redisLog := by
  rw [logRiskEvent_eq]

theorem logRiskEvent_redisFaults (M : Float64Ops) (w : World M) (trade : TradeRequest M)
    (decision reason : String) :
    (logRiskEvent M w trade decision reason).redisFaults = w.redisFaults := by
  rw [logRiskEvent_eq]

theorem logRiskEvent_ticks (M : Float64Ops) (w : World M) (trade : TradeRequest M)
    (decision reason : String) :
    (logRiskEvent M w trade decision reason).ticks = w.ticks.tail := by
  rw [logRiskEvent_eq]

theorem logRiskEvent_now (M : Float64Ops) (w : World M) (trade : TradeRequest M)
    (decision reason : String) :
    (logRiskEvent M w trade decision reason).now = w.ticks.headD w.now := by
  rw [logRiskEvent_eq]

theorem logRiskEvent_logs_mem (M : Float64Ops) (w : World M) (trade : TradeRequest M)
    (decision reason : String) (line : String) (h : line ∈ w.logs) :
    line ∈ (logRiskEvent M w trade decision reason).logs := by
  rw [logRiskEvent_eq]
  cases nextFault w.kafkaFaults <;> simp [h]

/-- The handler on a decoded request, by the outcome of its two reads. -/
theorem evaluateTradeHandler_ok (M : Float64Ops) (w : World M) (req : TradeRequest M) :
    evaluateTradeHandler M w (Except.ok req)
      = match (getUserDailyLimit M w req.UserID).2 with
        | Except.error e =>
          (logPrintf (getUserDailyLimit M w req.UserID).1 ("Failed to get user limits: " ++ e),
            HttpResponse.error 500 "Failed to get user limits")
        | Except.ok dailyLimit =>
          match (getDailyTradedAmount M (getUserDailyLimit M w req.UserID).1 req.UserID).2 with
          | Except.error e =>
            (logPrintf (getDailyTradedAmount M (getUserDailyLimit M w req.UserID).1 req.UserID).1
                ("Failed to get daily traded amount: " ++ e),
              HttpResponse.error 500 "Failed to get daily traded amount")
          | Except.ok dailyTraded =>
            if M.gt (M.add dailyTraded req.Amount) dailyLimit then
              (logRiskEvent M
                  (getDailyTradedAmount M (getUserDailyLimit M w req.UserID).1 req.UserID).1
                  req "REJECTED" "Daily trading limit exceeded",
                HttpResponse.json { Approved := false, Reason := "Daily trading limit exceeded" })
            else if M.gt req.Amount (M.mul dailyLimit M.litHalf) then
              (logRiskEvent M
                  (getDailyTradedAmount M (getUserDailyLimit M w req.UserID).1 req.UserID).1
                  req "REJECTED" "Large trade requires manual approval",
                HttpResponse.json
                  { Approved := false,
                    Reason := "Trade amount exceeds 50% of daily limit, requires manual approval" })
            else
              (logRiskEvent M
                  (match (updateDailyTradedAmount M
                      (getDailyTradedAmount M (getUserDailyLimit M w req.UserID).1 req.UserID).1
                      req.UserID (M.add dailyTraded req.Amount)).2 with
                    | some e =>
                      logPrintf (updateDailyTradedAmount M
                        (getDailyTradedAmount M (getUserDailyLimit M w req.UserID).1 req.UserID).1
                        req.UserID (M.add dailyTraded req.Amount)).1
                        ("Failed to update daily traded amount: " ++ e)
                    | none =>
                      (updateDailyTradedAmount M
                        (getDailyTradedAmount M (getUserDailyLimit M w req.UserID).1 req.UserID).1
                        req.UserID (M.add dailyTraded req.Amount)).1)
                  req "APPROVED" "",
                HttpResponse.json { Approved := true, Reason := "" }) := by
  simp only [evaluateTradeHandler]
  rcases hg : getUserDailyLimit M w req.UserID with ⟨w1, r⟩
  cases r with
  | error e => rfl
  | ok dailyLimit =>
    simp only
    rcases ht : getDailyTradedAmount M w1 req.UserID with ⟨w2, r2⟩
    cases r2 with
    | error e => rfl
    | ok dailyTraded =>
      simp only

/-- C4: when the read of the limit fails, or the read of the daily-traded
counter fails, the handler answers with HTTP 500 and no decision; the
keyspace is as before, Redis has only been sent the reads, and nothing has
been handed to Kafka. -/
theorem evaluateTradeHandler_read_failure (M : Float64Ops) (w : World M) (req : TradeRequest M)
    (e : String) :
    ((getUserDailyLimit M w req.UserID).2 = Except.error e →
        (evaluateTradeHandler M w (Except.ok req)).2
            = HttpResponse.error 500 "Failed to get user limits"
          ∧ (evaluateTradeHandler M w (Except.ok req)).1.store = w.store
          ∧ (evaluateTradeHandler M w (Except.ok req)).1.redisLog
              = w.redisLog ++ [RedisCmd.get (limitKey req.UserID)]
          ∧ (evaluateTradeHandler M w (Except.ok req)).1.kafkaLog = w.kafkaLog
          ∧ (evaluateTradeHandler M w (Except.ok req)).1.topic = w.topic)
      ∧ (∀ limit : M.F, (getUserDailyLimit M w req.UserID).2 = Except.ok limit →
          (getDailyTradedAmount M (getUserDailyLimit M w req.UserID).1 req.UserID).2
            = Except.error e →
          (evaluateTradeHandler M w (Except.ok req)).2
              = HttpResponse.error 500 "Failed to get daily traded amount"
            ∧ (evaluateTradeHandler M w (Except.ok req)).1.store = w.store
            ∧ (evaluateTradeHandler M w (Except.ok req)).1.redisLog
                = w.redisLog ++ [RedisCmd.get (limitKey req.UserID),
                    RedisCmd.get (tradedKey req.UserID (w.ticks.headD w.now).day)]
            ∧ (evaluateTradeHandler M w (Except.ok req)).1.kafkaLog = w.kafkaLog
            ∧ (evaluateTradeHandler M w (Except.ok req)).1.topic = w.topic) := by
  constructor
  · intro h
    rw [evaluateTradeHandler_ok, h]
    simp [logPrintf, getUserDailyLimit_fst]
  · intro limit hL hT
    rw [evaluateTradeHandler_ok, hL]
    simp only [hT]
    simp [logPrintf, getUserDailyLimit_fst, getDailyTradedAmount_fst]

/-- The response to a decoded request depends on the two reads only. -/
theorem evaluateTradeHandler_snd (M : Float64Ops) (w : World M) (req : TradeRequest M) :
    (evaluateTradeHandler M w (Except.ok req)).2
      = match (getUserDailyLimit M w req.UserID).2 with
        | Except.error _ => HttpResponse.error 500 "Failed to get user limits"
        | Except.ok dailyLimit =>
          match (getDailyTradedAmount M (getUserDailyLimit M w req.UserID).1 req.UserID).2 with
          | Except.error _ => HttpResponse.error 500 "Failed to get daily traded amount"
          | Except.ok dailyTraded =>
            if M.gt (M.add dailyTraded req.Amount) dailyLimit then
              HttpResponse.json { Approved := false, Reason := "Daily trading limit exceeded" }
            else if M.gt req.Amount (M.mul dailyLimit M.litHalf) then
              HttpResponse.json
                { Approved := false,
                  Reason := "Trade amount exceeds 50% of daily limit, requires manual approval" }
            else HttpResponse.json { Approved := true, Reason := "" } := by
  rw [evaluateTradeHandler_ok]
  cases (getUserDailyLimit M w req.UserID).2 with
  | error e => rfl
  | ok dailyLimit =>
    simp only
    cases (getDailyTradedAmount M (getUserDailyLimit M w req.UserID).1 req.UserID).2 with
    | error e => rfl
    | ok dailyTraded =>
      simp only
      split_ifs <;> rfl

/-- The world the commit step of an approved request leaves behind does
not differ from the world before it in what Kafka saw. -/
theorem commit_kafkaLog (M : Float64Ops) (w : World M) (u : String) (x : M.F) :
    (match (updateDailyTradedAmount M w u x).2 with
      | some e => logPrintf (updateDailyTradedAmount M w u x).1
          ("Failed to update daily traded amount: " ++ e)
      | none => (updateDailyTradedAmount M w u x).1).kafkaLog = w.kafkaLog := by
  cases (updateDailyTradedAmount M w u x).2 <;> simp [updateDailyTradedAmount_fst, logPrintf]

/-- C5: a request answered with a decision (approved or rejected, with the
commit of the counter succeeding or failing) hands exactly one message to
the Kafka writer; the message is keyed by the user id of the request and
its decision is APPROVED exactly when the response approves; the response
is the same whatever the outcome of the write. -/
theorem evaluateTradeHandler_publishes_once (M : Float64Ops) (w : World M)
    (req : TradeRequest M) (r : RiskResponse)
    (h : (evaluateTradeHandler M w (Except.ok req)).2 = HttpResponse.json r) :
    (∃ (reason : String) (timestamp : Int),
        (evaluateTradeHandler M w (Except.ok req)).1.kafkaLog
            = w.kafkaLog ++
                [riskMessage M req (if r.Approved then "APPROVED" else "REJECTED") reason
                  timestamp]
          ∧ (riskMessage M req (if r.Approved then "APPROVED" else "REJECTED") reason
              timestamp).Key = req.UserID)
      ∧ ∀ faults : List (Option String),
          (evaluateTradeHandler M { w with kafkaFaults := faults } (Except.ok req)).2
            = HttpResponse.json r := by
  constructor
  · rw [evaluateTradeHandler_ok] at h ⊢
    cases hL : (getUserDailyLimit M w req.UserID).2 with
    | error e => simp [hL] at h
    | ok dailyLimit =>
      simp only [hL] at h ⊢
      cases hT : (getDailyTradedAmount M (getUserDailyLimit M w req.UserID).1 req.UserID).2 with
      | error e => simp [hT] at h
      | ok dailyTraded =>
        simp only [hT] at h ⊢
        by_cases h1 : M.gt (M.add dailyTraded req.Amount) dailyLimit = true
        · simp only [h1, if_true] at h ⊢
          injection h with h
          subst h
          exact ⟨_, _, by rw [logRiskEvent_kafkaLog]; rfl, rfl⟩
        · rw [Bool.not_eq_true] at h1
          by_cases h2 : M.gt req.Amount (M.mul dailyLimit M.litHalf) = true
          · simp only [h1, h2, Bool.false_eq_true, if_true, if_false] at h ⊢
            injection h with h
            subst h
            exact ⟨_, _, by rw [logRiskEvent_kafkaLog]; rfl, rfl⟩
          · rw [Bool.not_eq_true] at h2
            simp only [h1, h2, Bool.false_eq_true, if_false] at h ⊢
            injection h with h
            subst h
            exact ⟨_, _, by rw [logRiskEvent_kafkaLog, commit_kafkaLog]; rfl, rfl⟩
  · intro faults
    rw [← h, evaluateTradeHandler_snd, evaluateTradeHandler_snd]
    simp [getUserDailyLimit_snd, getDailyTradedAmount_snd, getUserDailyLimit_fst]

/-- C10: when the rules approve a request and the commit of the new total
fails, the handler logs the failure, still answers approved, still hands an
APPROVED event to Kafka, and the keyspace is as it was. -/
theorem evaluateTradeHandler_commit_failure (M : Float64Ops) (w : World M)
    (req : TradeRequest M) (limit traded : M.F) (e : String)
    (hL : (getUserDailyLimit M w req.UserID).2 = Except.ok limit)
    (hT : (getDailyTradedAmount M (getUserDailyLimit M w req.UserID).1 req.UserID).2
      = Except.ok traded)
    (h1 : M.gt (M.add traded req.Amount) limit = false)
    (h2 : M.gt req.Amount (M.mul limit M.litHalf) = false)
    (hC : (updateDailyTradedAmount M
        (getDailyTradedAmount M (getUserDailyLimit M w req.UserID).1 req.UserID).1
        req.UserID (M.add traded req.Amount)).2 = some e) :
    (evaluateTradeHandler M w (Except.ok req)).2
        = HttpResponse.json { Approved := true, Reason := "" }
      ∧ (evaluateTradeHandler M w (Except.ok req)).1.store = w.store
      ∧ "Failed to update daily traded amount: " ++ e
          ∈ (evaluateTradeHandler M w (Except.ok req)).1.logs
      ∧ ∃ timestamp : Int,
          (evaluateTradeHandler M w (Except.ok req)).1.kafkaLog
            = w.kafkaLog ++ [riskMessage M req "APPROVED" "" timestamp] := by
  have hf : nextFault w.redisFaults.tail.tail = some e := by
    simpa [updateDailyTradedAmount_snd, getDailyTradedAmount_fst, getUserDailyLimit_fst] using hC
  rw [evaluateTradeHandler_ok, hL]
  simp only [hT, h1, h2, hC, Bool.false_eq_true, if_false]
  refine ⟨trivial, ?_, ?_, ?_⟩
  · simp [logRiskEvent_store, logPrintf, updateDailyTradedAmount_fst, getDailyTradedAmount_fst,
      getUserDailyLimit_fst, hf]
  · apply logRiskEvent_logs_mem
    simp [logPrintf]
  · exact ⟨_, by rw [logRiskEvent_kafkaLog]; rfl⟩

/-! ### Keys -/

theorem isDay_data {s : String} (h : isDay s = true) :
    s.data.length = 10 ∧ ∃ (front : List Char) (d : Char), s.data = front ++ [d] ∧ d.isDigit = true := by
  unfold isDay at h
  split at h
  · rename_i y1 y2 y3 y4 a m1 m2 b d1 d2 heq
    refine ⟨by simp [heq], [y1, y2, y3, y4, a, m1, m2, b, d1], d2, by simp [heq], ?_⟩
    simp only [Bool.and_eq_true] at h
    exact h.2
  · exact absurd h (by simp)

theorem tradedKey_data (u d : String) :
    (tradedKey u d).data = "user:".data ++ (u.data ++ (":traded:".data ++ d.data)) := by
  simp [tradedKey, String.data_append]

theorem limitKey_data (u : String) :
    (limitKey u).data = "user:".data ++ (u.data ++ ":daily_limit".data) := by
  simp [limitKey, String.data_append]

/-- The counter key determines the user and the day. -/
theorem tradedKey_inj {u u2 d d2 : String} (hd : isDay d = true) (hd2 : isDay d2 = true)
    (h : tradedKey u d = tradedKey u2 d2) : u = u2 ∧ d = d2 := by
  have h1 := congrArg String.data h
  rw [tradedKey_data, tradedKey_data] at h1
  have h2 := List.append_cancel_left h1
  have hlen : (":traded:".data ++ d.data).length = (":traded:".data ++ d2.data).length := by
    simp [(isDay_data hd).1, (isDay_data hd2).1]
  obtain ⟨h3, h4⟩ := List.append_inj_right' h2 hlen |> fun h4 => And.intro (List.append_inj_left' h2 hlen) h4
  exact ⟨String.ext h3, String.ext (List.append_cancel_left h4)⟩

/-- A counter key is never a limit key. -/
theorem tradedKey_ne_limitKey {u v d : String} (hd : isDay d = true) :
    tradedKey u d ≠ limitKey v := by
  intro h
  have h1 := congrArg String.data h
  rw [tradedKey_data, limitKey_data] at h1
  obtain ⟨front, c, hc, hdig⟩ := (isDay_data hd).2
  rw [hc] at h1
  have h2 := congrArg (fun l => l.reverse.head?) h1
  simp at h2
  subst h2
  exact absurd hdig (by decide)


theorem lookup_cons_ne {k key : String} (e : Entry) (store : List (String × Entry))
    (h : key ≠ k) : ((k, e) :: store).lookup key = store.lookup key := by
  have : (key == k) = false := by simpa using h
  simp [List.lookup, this]

theorem lookup_cons_self (k : String) (e : Entry) (store : List (String × Entry)) :
    ((k, e) :: store).lookup k = some e := by
  simp [List.lookup]

theorem lookupLive_cons_ne {k key : String} (e : Entry) (store : List (String × Entry))
    (t : Int) (h : key ≠ k) : lookupLive ((k, e) :: store) key t = lookupLive store key t := by
  simp [lookupLive, lookup_cons_ne e store h]

/-- C6 (amended): `getUserDailyLimit` gives the parse of the stored text
when the key is set and 10000 when it is not; `getDailyTradedAmount` gives
the parse of today's stored total, or 0 when there is none; each fails when
the Redis call fails or the stored text does not parse as a float, and
only then. -/
theorem reads_result (M : Float64Ops) (w : World M) (u : String) :
    ((∀ e : String, nextFault w.redisFaults = some e →
          (getUserDailyLimit M w u).2 = Except.error e)
      ∧ (nextFault w.redisFaults = none → lookupLive w.store (limitKey u) w.now.unix = none →
          (getUserDailyLimit M w u).2 = Except.ok M.lit10000)
      ∧ (∀ v : String, nextFault w.redisFaults = none →
          lookupLive w.store (limitKey u) w.now.unix = some v →
          (getUserDailyLimit M w u).2 = M.parseFloat v)
      ∧ ((∃ e : String, (getUserDailyLimit M w u).2 = Except.error e) ↔
          (∃ e : String, nextFault w.redisFaults = some e)
            ∨ ∃ (v e : String), lookupLive w.store (limitKey u) w.now.unix = some v
                ∧ M.parseFloat v = Except.error e))
    ∧ ((∀ e : String, nextFault w.redisFaults = some e →
          (getDailyTradedAmount M w u).2 = Except.error e)
      ∧ (nextFault w.redisFaults = none →
          lookupLive w.store (tradedKey u (w.ticks.headD w.now).day) (w.ticks.headD w.now).unix
            = none →
          (getDailyTradedAmount M w u).2 = Except.ok M.lit0)
      ∧ (∀ v : String, nextFault w.redisFaults = none →
          lookupLive w.store (tradedKey u (w.ticks.headD w.now).day) (w.ticks.headD w.now).unix
            = some v →
          (getDailyTradedAmount M w u).2 = M.parseFloat v)
      ∧ ((∃ e : String, (getDailyTradedAmount M w u).2 = Except.error e) ↔
          (∃ e : String, nextFault w.redisFaults = some e)
            ∨ ∃ (v e : String),
                lookupLive w.store (tradedKey u (w.ticks.headD w.now).day)
                    (w.ticks.headD w.now).unix = some v
                  ∧ M.parseFloat v = Except.error e)) := by
  constructor
  · rw [getUserDailyLimit_snd]
    cases hf : nextFault w.redisFaults with
    | some e0 => simp
    | none =>
      cases hl : lookupLive w.store (limitKey u) w.now.unix with
      | none => simp
      | some v0 => simp
  · rw [getDailyTradedAmount_snd]
    cases hf : nextFault w.redisFaults with
    | some e0 => simp
    | none =>
      cases hl : lookupLive w.store (tradedKey u (w.ticks.headD w.now).day)
          (w.ticks.headD w.now).unix with
      | none => simp
      | some v0 => simp

/-- C8 (amended): a body that does not decode is answered with HTTP 400
and the decoder's message, and the world is untouched: no Redis command, no
Kafka message, no change of the keyspace.  A body that decodes is never
answered with 400, whatever its fields hold: the handler goes on to read
the limit of its user. -/
theorem evaluateTradeHandler_decode (M : Float64Ops) (w : World M) :
    (∀ e : String, evaluateTradeHandler M w (Except.error e) = (w, HttpResponse.error 400 e))
      ∧ ∀ req : TradeRequest M,
          (∀ msg : String,
              (evaluateTradeHandler M w (Except.ok req)).2 ≠ HttpResponse.error 400 msg)
            ∧ ∃ rest : List RedisCmd,
                (evaluateTradeHandler M w (Except.ok req)).1.redisLog
                  = w.redisLog ++ RedisCmd.get (limitKey req.UserID) :: rest := by
  refine ⟨fun e => rfl, fun req => ?_⟩
  rw [evaluateTradeHandler_ok]
  cases (getUserDailyLimit M w req.UserID).2 with
  | error e => exact ⟨fun msg => by simp, [], by simp [logPrintf, getUserDailyLimit_fst]⟩
  | ok dailyLimit =>
    simp only
    cases (getDailyTradedAmount M (getUserDailyLimit M w req.UserID).1 req.UserID).2 with
    | error e =>
      exact ⟨fun msg => by simp, _,
        by simp [logPrintf, getUserDailyLimit_fst, getDailyTradedAmount_fst]; rfl⟩
    | ok dailyTraded =>
      simp only
      split_ifs
      · exact ⟨fun msg => by simp, _,
          by simp [logRiskEvent_redisLog, getUserDailyLimit_fst, getDailyTradedAmount_fst]; rfl⟩
      · exact ⟨fun msg => by simp, _,
          by simp [logRiskEvent_redisLog, getUserDailyLimit_fst, getDailyTradedAmount_fst]; rfl⟩
      · refine ⟨fun msg => by simp,
          [RedisCmd.get (tradedKey req.UserID (w.ticks.headD w.now).day),
            RedisCmd.set (tradedKey req.UserID (w.ticks.tail.headD (w.ticks.headD w.now)).day)
              (M.formatFloat (M.add dailyTraded req.Amount)) ttl24h], ?_⟩
        rw [logRiskEvent_redisLog]
        cases (updateDailyTradedAmount M
            (getDailyTradedAmount M (getUserDailyLimit M w req.UserID).1 req.UserID).1
            req.UserID (M.add dailyTraded req.Amount)).2 <;>
          simp [logPrintf, updateDailyTradedAmount_fst, getUserDailyLimit_fst,
            getDailyTradedAmount_fst]

/-- C9 (amended): the trading day is resolved twice.  For an approved
request whose read of the counter sees the clock at `t1` and whose commit
sees it at `t2`, the handler reads the counter of day `t1.day` and commits
`traded + amount` under the key of day `t2.day`; the two keys are the same
whenever both readings fall on the same day. -/
theorem evaluateTradeHandler_commit_day (M : Float64Ops) (w : World M) (req : TradeRequest M)
    (limit traded : M.F) (t1 t2 : Instant) (rest : List Instant)
    (hticks : w.ticks = t1 :: t2 :: rest)
    (hL : (getUserDailyLimit M w req.UserID).2 = Except.ok limit)
    (hT : (getDailyTradedAmount M (getUserDailyLimit M w req.UserID).1 req.UserID).2
      = Except.ok traded)
    (h1 : M.gt (M.add traded req.Amount) limit = false)
    (h2 : M.gt req.Amount (M.mul limit M.litHalf) = false) :
    (evaluateTradeHandler M w (Except.ok req)).1.redisLog
        = w.redisLog ++
            [RedisCmd.get (limitKey req.UserID),
              RedisCmd.get (tradedKey req.UserID t1.day),
              RedisCmd.set (tradedKey req.UserID t2.day)
                (M.formatFloat (M.add traded req.Amount)) ttl24h]
      ∧ (nextFault w.redisFaults.tail.tail = none →
          (evaluateTradeHandler M w (Except.ok req)).1.store
            = (tradedKey req.UserID t2.day,
                { val := M.formatFloat (M.add traded req.Amount),
                  expireAt := some (t2.unix + ttl24h) }) :: w.store)
      ∧ (t1.day = t2.day → tradedKey req.UserID t2.day = tradedKey req.UserID t1.day) := by
  rw [evaluateTradeHandler_ok, hL]
  simp only [hT, h1, h2, Bool.false_eq_true, if_false]
  refine ⟨?_, ?_, fun h => by rw [h]⟩
  · rw [logRiskEvent_redisLog]
    cases (updateDailyTradedAmount M
        (getDailyTradedAmount M (getUserDailyLimit M w req.UserID).1 req.UserID).1
        req.UserID (M.add traded req.Amount)).2 <;>
      simp [logPrintf, updateDailyTradedAmount_fst, getUserDailyLimit_fst,
        getDailyTradedAmount_fst, hticks]
  · intro hf
    rw [logRiskEvent_store]
    have hu : (updateDailyTradedAmount M
        (getDailyTradedAmount M (getUserDailyLimit M w req.UserID).1 req.UserID).1
        req.UserID (M.add traded req.Amount)).2 = none := by
      simpa [updateDailyTradedAmount_snd, getDailyTradedAmount_fst, getUserDailyLimit_fst] using hf
    simp only [hu]
    simp [updateDailyTradedAmount_fst, getUserDailyLimit_fst, getDailyTradedAmount_fst, hticks, hf]

/-! ### The decimal instance -/

theorem digitChar_spec (d : Nat) :
    (digitChar d).isDigit = true ∧ digitVal (digitChar d) = d % 10 := by
  have h : d % 10 < 10 := Nat.mod_lt _ (by decide)
  unfold digitChar
  generalize d % 10 = r at h
  interval_cases r <;> decide

theorem readDigits_snoc (acc : Nat) (cs : List Char) (c : Char) :
    readDigits acc (cs ++ [c]) = readDigits acc cs * 10 + digitVal c := by
  simp [readDigits, List.foldl_append]

theorem readDigits_append (acc : Nat) (xs ys : List Char) :
    readDigits acc (xs ++ ys) = readDigits (readDigits acc xs) ys := by
  simp [readDigits, List.foldl_append]

theorem readDigits_showFixed (k : Nat) : ∀ acc n : Nat,
    readDigits acc (showFixed k n) = acc * 10 ^ k + n % 10 ^ k := by
  induction k with
  | zero => intro acc n; simp [showFixed, readDigits, Nat.mod_one]
  | succ k ih =>
    intro acc n
    rw [showFixed, readDigits_snoc, ih, (digitChar_spec n).2, Nat.pow_succ', Nat.mod_mul]
    ring

theorem showFixed_length (k : Nat) : ∀ n : Nat, (showFixed k n).length = k := by
  induction k with
  | zero => intro n; rfl
  | succ k ih => intro n; simp [showFixed, ih]

theorem showFixed_digits (k : Nat) : ∀ n : Nat, (showFixed k n).all Char.isDigit = true := by
  induction k with
  | zero => intro n; rfl
  | succ k ih => intro n; simp [showFixed, List.all_append, ih, (digitChar_spec n).1]

theorem readDigits_showNatAux (fuel : Nat) : ∀ n : Nat, n < fuel →
    readDigits 0 (showNatAux fuel n) = n := by
  induction fuel with
  | zero => intro n h; omega
  | succ fuel ih =>
    intro n h
    unfold showNatAux
    split_ifs with h10
    · simp [readDigits, (digitChar_spec n).2, Nat.mod_eq_of_lt h10]
    · rw [readDigits_snoc, ih (n / 10) (by omega), (digitChar_spec n).2]
      omega

theorem showNatAux_digits (fuel : Nat) : ∀ n : Nat,
    (showNatAux fuel n).all Char.isDigit = true := by
  induction fuel with
  | zero => intro n; rfl
  | succ fuel ih =>
    intro n
    unfold showNatAux
    split_ifs
    · simp [(digitChar_spec n).1]
    · simp [List.all_append, ih, (digitChar_spec n).1]

theorem showNat_ne_nil (n : Nat) : showNat n ≠ [] := by
  unfold showNat showNatAux
  split_ifs <;> simp

theorem readDigits_showNat (n : Nat) : readDigits 0 (showNat n) = n :=
  readDigits_showNatAux (n + 1) n (by omega)

theorem showNat_digits (n : Nat) : (showNat n).all Char.isDigit = true :=
  showNatAux_digits (n + 1) n

theorem takeWhile_digits (ds rest : List Char) (h : ds.all Char.isDigit = true)
    (hrest : rest.head?.all (fun c => !c.isDigit) = true) :
    (ds ++ rest).takeWhile Char.isDigit = ds ∧ (ds ++ rest).dropWhile Char.isDigit = rest := by
  induction ds with
  | nil =>
    cases rest with
    | nil => simp
    | cons c cs =>
      have hc : c.isDigit = false := by simpa using hrest
      simp [List.takeWhile, List.dropWhile, hc]
  | cons d ds ih =>
    simp only [List.all_cons, Bool.and_eq_true] at h
    simp [List.takeWhile, List.dropWhile, h.1, ih h.2]

theorem head_showNat (n : Nat) : ∃ c cs, showNat n = c :: cs ∧ c.isDigit = true := by
  have h := showNat_digits n
  have hne := showNat_ne_nil n
  cases hs : showNat n with
  | nil => exact absurd hs hne
  | cons c cs =>
    rw [hs] at h
    simp only [List.all_cons, Bool.and_eq_true] at h
    exact ⟨c, cs, rfl, h.1⟩

theorem parseUnsigned_show (a k : Nat) :
    parseUnsigned
        (if k = 0 then showNat a else showNat (a / 10 ^ k) ++ '.' :: showFixed k a)
      = some { mant := (a : Int), scale := k } := by
  by_cases hk : k = 0
  · subst hk
    have h := takeWhile_digits (showNat a) [] (showNat_digits a) (by simp)
    simp only [List.append_nil] at h
    simp [parseUnsigned, h.1, h.2, showNat_ne_nil, readDigits_showNat]
  · have h := takeWhile_digits (showNat (a / 10 ^ k)) ('.' :: showFixed k a)
      (showNat_digits _) (by simp)
    simp only [hk, if_false]
    unfold parseUnsigned
    simp only [h.1, h.2]
    simp [showFixed_digits, showNat_ne_nil, readDigits_append, readDigits_showNat,
      readDigits_showFixed, showFixed_length, Nat.div_add_mod']

theorem parseDec_showDec (x : Dec) : parseDec (showDec x) = some x := by
  obtain ⟨m, k⟩ := x
  have hp := parseUnsigned_show m.natAbs k
  unfold showDec
  simp only
  by_cases hneg : m < 0
  · have hs : (if k = 0 then ['-'] ++ showNat m.natAbs
        else ['-'] ++ (showNat (m.natAbs / 10 ^ k) ++ '.' :: showFixed k m.natAbs))
        = '-' :: (if k = 0 then showNat m.natAbs
            else showNat (m.natAbs / 10 ^ k) ++ '.' :: showFixed k m.natAbs) := by
      split_ifs <;> rfl
    simp only [hneg, if_true, hs]
    simp only [parseDec, List.head?_cons, List.tail_cons, if_true, hp, Option.map_some']
    congr 2
    omega
  · have hs : (if k = 0 then ([] : List Char) ++ showNat m.natAbs
        else [] ++ (showNat (m.natAbs / 10 ^ k) ++ '.' :: showFixed k m.natAbs))
        = (if k = 0 then showNat m.natAbs
            else showNat (m.natAbs / 10 ^ k) ++ '.' :: showFixed k m.natAbs) := by
      split_ifs <;> rfl
    simp only [hneg, if_false, hs]
    obtain ⟨c, cs, hc, hdig⟩ : ∃ c cs, (if k = 0 then showNat m.natAbs
        else showNat (m.natAbs / 10 ^ k) ++ '.' :: showFixed k m.natAbs) = c :: cs
        ∧ c.isDigit = true := by
      split_ifs
      · exact head_showNat _
      · obtain ⟨c, cs, hc, hdig⟩ := head_showNat (m.natAbs / 10 ^ k)
        exact ⟨c, cs ++ '.' :: showFixed k m.natAbs, by simp [hc], hdig⟩
    have h1 : c ≠ '-' := by rintro rfl; exact absurd hdig (by decide)
    have h2 : c ≠ '+' := by rintro rfl; exact absurd hdig (by decide)
    rw [hc] at hp ⊢
    simp only [parseDec, List.head?_cons, Option.some.injEq, h1, h2, if_false, hp]
    congr 2
    omega

/-- What go-redis writes for a total is read back by `ParseFloat` as the
same total. -/
theorem decimalOps_roundtrip (x : decimalOps.F) :
    decimalOps.parseFloat (decimalOps.formatFloat x) = Except.ok x := by
  show (match parseDec (String.mk (showDec x)).data with
    | some y => Except.ok y
    | none => _) = _
  simp [parseDec_showDec]

/-- C7: a total committed by `updateDailyTradedAmount` for user `U` on day
`D` is what `getDailyTradedAmount` reads for `(U, D)` and changes the read
of no other user or day and of no limit: the counter key determines the
user and the day (whatever characters the user id holds), and is never a
limit key; a read for another day on which nothing was committed gives
0. -/
theorem committed_total_read_back (M : Float64Ops) (w : World M) (U D : String) (x : M.F)
    (hD : isDay D = true) (hday : (w.ticks.headD w.now).day = D)
    (hok : nextFault w.redisFaults = none)
    (hrt : M.parseFloat (M.formatFloat x) = Except.ok x) :
    (∀ U2 D2 : String, isDay D2 = true → tradedKey U2 D2 = tradedKey U D → U2 = U ∧ D2 = D)
      ∧ (∀ U2 D2 V : String, isDay D2 = true → tradedKey U2 D2 ≠ limitKey V)
      ∧ (∀ t : Instant, t.day = D → t.unix < (w.ticks.headD w.now).unix + ttl24h →
          (getDailyTradedAmount M (atInstant (updateDailyTradedAmount M w U x).1 t) U).2
            = Except.ok x)
      ∧ (∀ (U2 : String) (t : Instant), isDay t.day = true → (U2 ≠ U ∨ t.day ≠ D) →
          (getDailyTradedAmount M (atInstant (updateDailyTradedAmount M w U x).1 t) U2).2
            = (getDailyTradedAmount M (atInstant w t) U2).2)
      ∧ (∀ t : Instant, isDay t.day = true → t.day ≠ D →
          w.store.lookup (tradedKey U t.day) = none →
          (getDailyTradedAmount M (atInstant (updateDailyTradedAmount M w U x).1 t) U).2
            = Except.ok M.lit0)
      ∧ (∀ (V : String) (t : Instant),
          (getUserDailyLimit M (atInstant (updateDailyTradedAmount M w U x).1 t) V).2
            = (getUserDailyLimit M (atInstant w t) V).2) := by
  have hstore : (updateDailyTradedAmount M w U x).1.store
      = (tradedKey U D,
          { val := M.formatFloat x,
            expireAt := some ((w.ticks.headD w.now).unix + ttl24h) }) :: w.store := by
    simp [updateDailyTradedAmount_fst, hok, ← hday]
  have hother : ∀ (U2 : String) (t : Instant), isDay t.day = true → (U2 ≠ U ∨ t.day ≠ D) →
      (getDailyTradedAmount M (atInstant (updateDailyTradedAmount M w U x).1 t) U2).2
        = (getDailyTradedAmount M (atInstant w t) U2).2 := by
    intro U2 t ht hne
    have hk : tradedKey U2 t.day ≠ tradedKey U D := by
      intro hkey
      obtain ⟨h1, h2⟩ := tradedKey_inj ht hD hkey
      rcases hne with h | h
      · exact h h1
      · exact h h2
    simp [getDailyTradedAmount_snd, atInstant, hstore, lookupLive_cons_ne _ _ _ hk]
  refine ⟨fun U2 D2 h2 hkey => tradedKey_inj h2 hD hkey,
    fun U2 D2 V h2 => tradedKey_ne_limitKey h2, ?_, hother, ?_, ?_⟩
  · intro t ht hlive
    rw [List.headD_eq_head?_getD] at hlive
    simp [getDailyTradedAmount_snd, atInstant, hstore, ht, lookupLive, lookup_cons_self,
      Entry.live, hlive, nextFault, hrt]
  · intro t ht hne hnone
    rw [hother U t ht (Or.inr hne)]
    simp [getDailyTradedAmount_snd, atInstant, lookupLive, hnone, nextFault]
  · intro V t
    have hk : limitKey V ≠ tradedKey U D := fun h => tradedKey_ne_limitKey hD h.symm
    simp [getUserDailyLimit_snd, atInstant, hstore, lookupLive_cons_ne _ _ _ hk]

/-! ### Requests handled one after another -/

theorem getUserDailyLimit_readOr (M : Float64Ops) (w : World M) (u : String)
    (h : w.redisFaults = []) :
    (getUserDailyLimit M w u).2
      = readOr M M.lit10000 (lookupLive w.store (limitKey u) w.now.unix) := by
  rw [getUserDailyLimit_snd, h]
  rfl

theorem getDailyTradedAmount_readOr (M : Float64Ops) (w : World M) (u : String)
    (h : w.redisFaults = []) :
    (getDailyTradedAmount M w u).2
      = readOr M M.lit0
          (lookupLive w.store (tradedKey u (w.ticks.headD w.now).day) (w.ticks.headD w.now).unix) := by
  rw [getDailyTradedAmount_snd, h]
  rfl

theorem headD_mem_cons {α : Type} (a : α) (l : List α) : l.headD a ∈ a :: l := by
  cases l <;> simp

theorem clock_advance {P : Instant → Prop} {now : Instant} {ticks : List Instant}
    (h : ∀ t ∈ now :: ticks, P t) : ∀ t ∈ ticks.headD now :: ticks.tail, P t := by
  intro t ht
  cases ticks with
  | nil => simpa using h t (by simpa using ht)
  | cons a rest => exact h t (by simp at ht ⊢; right; exact ht)

/-- One request keeps the store steady; the counter moves by the amount
exactly when the response approves, and then the new total passed the
check against the limit. -/
theorem evaluateTradeHandler_steady (M : Float64Ops) (U D : String) (t0 : Int)
    (lim : Except String M.F) (total : M.F) (w : World M) (req : TradeRequest M)
    (hD : isDay D = true) (hrt : ∀ x : M.F, M.parseFloat (M.formatFloat x) = Except.ok x)
    (hS : Steady M U D t0 lim total w) (hU : req.UserID = U) :
    Steady M U D t0 lim
        (if (evaluateTradeHandler M w (Except.ok req)).2.approved then M.add total req.Amount
          else total)
        (evaluateTradeHandler M w (Except.ok req)).1
      ∧ ((evaluateTradeHandler M w (Except.ok req)).2.approved = true →
          ∀ limit : M.F, lim = Except.ok limit → M.gt (M.add total req.Amount) limit = false) := by
  obtain ⟨hf, hclk, hcnt, hlim⟩ := hS
  have hnow := hclk w.now (by simp)
  have hL : (getUserDailyLimit M w req.UserID).2 = lim := by
    rw [getUserDailyLimit_readOr M w _ hf, hU]
    exact hlim _ hnow.2.1 hnow.2.2
  have hf1 : (getUserDailyLimit M w req.UserID).1.redisFaults = [] := by
    simp [getUserDailyLimit_fst, hf]
  rw [evaluateTradeHandler_ok, hL]
  cases lim with
  | error e =>
    simp only
    refine ⟨⟨?_, ?_, ?_, ?_⟩, ?_⟩
    · simp [logPrintf, getUserDailyLimit_fst, hf]
    · simpa [logPrintf, getUserDailyLimit_fst] using hclk
    · simpa [logPrintf, getUserDailyLimit_fst, HttpResponse.approved] using hcnt
    · simpa [logPrintf, getUserDailyLimit_fst] using hlim
    · simp [HttpResponse.approved]
  | ok dailyLimit =>
    have ht1 := hclk (w.ticks.headD w.now) (headD_mem_cons _ _)
    have hT : (getDailyTradedAmount M (getUserDailyLimit M w req.UserID).1 req.UserID).2
        = Except.ok total := by
      rw [getDailyTradedAmount_readOr M _ _ hf1, hU]
      simp only [getUserDailyLimit_fst]
      rw [ht1.1]
      exact hcnt _ ht1.2.1 ht1.2.2
    have hclk1 := clock_advance hclk
    have hclk2 := clock_advance hclk1
    simp only [hT]
    by_cases h1 : M.gt (M.add total req.Amount) dailyLimit = true
    · simp only [h1, if_true]
      refine ⟨⟨?_, ?_, ?_, ?_⟩, ?_⟩
      · simp [logRiskEvent_redisFaults, getDailyTradedAmount_fst, getUserDailyLimit_fst, hf]
      · simpa [logRiskEvent_now, logRiskEvent_ticks, getDailyTradedAmount_fst,
          getUserDailyLimit_fst] using hclk2
      · simpa [logRiskEvent_store, getDailyTradedAmount_fst, getUserDailyLimit_fst,
          HttpResponse.approved] using hcnt
      · simpa [logRiskEvent_store, getDailyTradedAmount_fst, getUserDailyLimit_fst] using hlim
      · simp [HttpResponse.approved]
    · rw [Bool.not_eq_true] at h1
      by_cases h2 : M.gt req.Amount (M.mul dailyLimit M.litHalf) = true
      · simp only [h1, h2, Bool.false_eq_true, if_true, if_false]
        refine ⟨⟨?_, ?_, ?_, ?_⟩, ?_⟩
        · simp [logRiskEvent_redisFaults, getDailyTradedAmount_fst, getUserDailyLimit_fst, hf]
        · simpa [logRiskEvent_now, logRiskEvent_ticks, getDailyTradedAmount_fst,
            getUserDailyLimit_fst] using hclk2
        · simpa [logRiskEvent_store, getDailyTradedAmount_fst, getUserDailyLimit_fst,
            HttpResponse.approved] using hcnt
        · simpa [logRiskEvent_store, getDailyTradedAmount_fst, getUserDailyLimit_fst] using hlim
        · simp [HttpResponse.approved]
      · rw [Bool.not_eq_true] at h2
        have ht2 := hclk1 (w.ticks.tail.headD (w.ticks.headD w.now)) (headD_mem_cons _ _)
        have hu : (updateDailyTradedAmount M
            (getDailyTradedAmount M (getUserDailyLimit M w req.UserID).1 req.UserID).1
            req.UserID (M.add total req.Amount)).2 = none := by
          simp [updateDailyTradedAmount_snd, getDailyTradedAmount_fst, getUserDailyLimit_fst, hf,
            nextFault]
        have hst : (updateDailyTradedAmount M
            (getDailyTradedAmount M (getUserDailyLimit M w req.UserID).1 req.UserID).1
            req.UserID (M.add total req.Amount)).1.store
            = (tradedKey U D,
                { val := M.formatFloat (M.add total req.Amount),
                  expireAt := some ((w.ticks.tail.headD (w.ticks.headD w.now)).unix + ttl24h) })
              :: w.store := by
          rw [updateDailyTradedAmount_fst]
          simp only [getDailyTradedAmount_fst, getUserDailyLimit_fst, hf, List.tail_nil, nextFault,
            hU, ht2.1]
        simp only [h1, h2, Bool.false_eq_true, if_false, hu]
        refine ⟨⟨?_, ?_, ?_, ?_⟩, ?_⟩
        · simp [logRiskEvent_redisFaults, updateDailyTradedAmount_fst, getDailyTradedAmount_fst,
            getUserDailyLimit_fst, hf]
        · simpa [logRiskEvent_now, logRiskEvent_ticks, updateDailyTradedAmount_fst,
            getDailyTradedAmount_fst, getUserDailyLimit_fst] using clock_advance hclk2
        · intro t ht0 ht
          rw [logRiskEvent_store, hst]
          have hlive : t < (w.ticks.tail.headD (w.ticks.headD w.now)).unix + ttl24h := by
            have := ht2.2.1
            omega
          simp only [HttpResponse.approved, lookupLive, lookup_cons_self, Entry.live, hlive, readOr,
            hrt, decide_True, if_true]
        · intro t ht0 ht
          rw [logRiskEvent_store, hst]
          have hk : limitKey U ≠ tradedKey U D := fun h => tradedKey_ne_limitKey hD h.symm
          rw [lookupLive_cons_ne _ _ _ hk]
          exact hlim t ht0 ht
        · intro _ limit hlimit
          injection hlimit with hlimit
          rw [← hlimit]
          exact h1

theorem getDailyTradedAmount_steady (M : Float64Ops) (U D : String) (t0 : Int)
    (lim : Except String M.F) (total : M.F) (w : World M) (hS : Steady M U D t0 lim total w) :
    (getDailyTradedAmount M w U).2 = Except.ok total := by
  obtain ⟨hf, hclk, hcnt, _⟩ := hS
  have ht1 := hclk (w.ticks.headD w.now) (headD_mem_cons _ _)
  rw [getDailyTradedAmount_readOr M w U hf, ht1.1]
  exact hcnt _ ht1.2.1 ht1.2.2

/-- A run of requests keeps the store steady; the counter ends at the
starting total plus the approved amounts. -/
theorem handleAll_steady (M : Float64Ops) (U D : String) (t0 : Int) (lim : Except String M.F)
    (hD : isDay D = true) (hrt : ∀ x : M.F, M.parseFloat (M.formatFloat x) = Except.ok x) :
    ∀ (reqs : List (TradeRequest M)) (w : World M) (total : M.F),
      Steady M U D t0 lim total w → (∀ r ∈ reqs, r.UserID = U) →
      Steady M U D t0 lim (approvedFrom M total reqs (handleAll M w reqs).2)
          (handleAll M w reqs).1
        ∧ (M.gt M.lit0 total = false → (∀ r ∈ reqs, M.gt r.Amount M.lit0 = true) →
            (∀ t a : M.F, M.gt M.lit0 t = false → M.gt a M.lit0 = true →
              M.gt M.lit0 (M.add t a) = false) →
            M.gt M.lit0 (approvedFrom M total reqs (handleAll M w reqs).2) = false)
        ∧ (∀ limit : M.F, lim = Except.ok limit → M.gt total limit = false →
            M.gt (approvedFrom M total reqs (handleAll M w reqs).2) limit = false) := by
  intro reqs
  induction reqs with
  | nil =>
    intro w total hS _
    exact ⟨hS, fun h _ _ => h, fun _ _ h => h⟩
  | cons req rest ih =>
    intro w total hS hU
    obtain ⟨hS1, hchk⟩ := evaluateTradeHandler_steady M U D t0 lim total w req hD hrt hS
      (hU req (by simp))
    obtain ⟨hS2, hnn, hle⟩ := ih _ _ hS1 (fun r hr => hU r (by simp [hr]))
    simp only [handleAll, approvedFrom]
    refine ⟨hS2, ?_, ?_⟩
    · intro h0 hpos hadd
      apply hnn _ (fun r hr => hpos r (by simp [hr])) hadd
      split_ifs
      · exact hadd _ _ h0 (hpos req (by simp))
      · exact h0
    · intro limit hlimit hT
      apply hle limit hlimit
      split_ifs with happ
      · exact hchk happ limit hlimit
      · exact hT

/-- C2 (amended): requests of one user with positive amounts, handled one
after another on one trading day with a working store, an unchanged limit
and no counter stored beforehand: after each request the daily-traded value
read back from the store equals the sum of the amounts of the requests
approved so far; it is never below 0; it is never above the limit when the
limit is not negative; a request that is not approved leaves it
unchanged.  The window `t0 .. t0 + 24h` is the trading day `D`.  Of the
arithmetic the proof uses that the text go-redis writes for a total parses
back to that total (`hrt`), that `0 > 0` is false (`hzero`) and that a
positive amount added to a total that is not negative gives a total that
is not negative (`hadd`). -/
theorem daily_traded_is_approved_sum (M : Float64Ops) (w : World M) (U D : String) (t0 : Int)
    (lim : Option String) (reqs : List (TradeRequest M))
    (hD : isDay D = true)
    (hU : ∀ r ∈ reqs, r.UserID = U)
    (hpos : ∀ r ∈ reqs, M.gt r.Amount M.lit0 = true)
    (hfaults : w.redisFaults = [])
    (hclock : ∀ t ∈ w.now :: w.ticks, t.day = D ∧ t0 ≤ t.unix ∧ t.unix < t0 + ttl24h)
    (hnone : w.store.lookup (tradedKey U D) = none)
    (hlimit : ∀ t : Int, t0 ≤ t → t < t0 + ttl24h → lookupLive w.store (limitKey U) t = lim)
    (hrt : ∀ x : M.F, M.parseFloat (M.formatFloat x) = Except.ok x)
    (hzero : M.gt M.lit0 M.lit0 = false)
    (hadd : ∀ t a : M.F, M.gt M.lit0 t = false → M.gt a M.lit0 = true →
      M.gt M.lit0 (M.add t a) = false) :
    ∀ k : Nat,
      (getDailyTradedAmount M (handleAll M w (reqs.take k)).1 U).2
          = Except.ok (approvedTotal M (reqs.take k) (handleAll M w (reqs.take k)).2)
        ∧ M.gt M.lit0 (approvedTotal M (reqs.take k) (handleAll M w (reqs.take k)).2) = false
        ∧ (∀ limit : M.F, readOr M M.lit10000 lim = Except.ok limit →
            M.gt M.lit0 limit = false →
            M.gt (approvedTotal M (reqs.take k) (handleAll M w (reqs.take k)).2) limit = false)
        ∧ (∀ r : TradeRequest M, r.UserID = U →
            (evaluateTradeHandler M (handleAll M w (reqs.take k)).1 (Except.ok r)).2.approved
              = false →
            (getDailyTradedAmount M
                (evaluateTradeHandler M (handleAll M w (reqs.take k)).1 (Except.ok r)).1 U).2
              = (getDailyTradedAmount M (handleAll M w (reqs.take k)).1 U).2) := by
  intro k
  have hS0 : Steady M U D t0 (readOr M M.lit10000 lim) M.lit0 w := by
    refine ⟨hfaults, hclock, ?_, ?_⟩
    · intro t _ _
      simp [lookupLive, hnone, readOr]
    · intro t h1 h2
      rw [hlimit t h1 h2]
  obtain ⟨hS, hnn, hle⟩ := handleAll_steady M U D t0 _ hD hrt (reqs.take k) w M.lit0 hS0
    (fun r hr => hU r (List.mem_of_mem_take hr))
  refine ⟨getDailyTradedAmount_steady M U D t0 _ _ _ hS,
    hnn hzero (fun r hr => hpos r (List.mem_of_mem_take hr)) hadd,
    fun limit hl h0 => hle limit hl h0, ?_⟩
  intro r hr hrej
  have h1 := (evaluateTradeHandler_steady M U D t0 _ _ _ r hD hrt hS hr).1
  rw [hrej] at h1
  rw [getDailyTradedAmount_steady M U D t0 _ _ _ hS]
  exact getDailyTradedAmount_steady M U D t0 _ _ _ h1

/-! ### Order laws of the decimal instance -/

theorem normalize_mant_nonneg (k : Nat) : ∀ m : Int, 0 ≤ m → 0 ≤ (Dec.normalize m k).mant := by
  induction k with
  | zero => intro m h; simpa [Dec.normalize] using h
  | succ k ih =>
    intro m h
    unfold Dec.normalize
    split_ifs
    · exact ih _ (Int.ediv_nonneg h (by decide))
    · exact h

theorem decimalOps_zero : decimalOps.gt decimalOps.lit0 decimalOps.lit0 = false := by decide

theorem decimalOps_add_nonneg (t a : decimalOps.F)
    (ht : decimalOps.gt decimalOps.lit0 t = false) (ha : decimalOps.gt a decimalOps.lit0 = true) :
    decimalOps.gt decimalOps.lit0 (decimalOps.add t a) = false := by
  have ht1 : 0 ≤ t.mant := by
    simpa [decimalOps, Dec.gt] using ht
  have ha1 : 0 < a.mant := by
    simpa [decimalOps, Dec.gt] using ha
  have h : 0 ≤ (Dec.add t a).mant := by
    apply normalize_mant_nonneg
    positivity
  simpa [decimalOps, Dec.gt] using h

/-! ### Requests handled concurrently -/

/-- A request that runs alone goes through `evaluateTradeHandler`. -/
theorem steps_eq_evaluateTradeHandler (M : Float64Ops) (w : World M) (req : TradeRequest M) :
    interleave M w [req] [0, 0, 0, 0]
      = ((evaluateTradeHandler M w (Except.ok req)).1,
          [Stage.responded (evaluateTradeHandler M w (Except.ok req)).2]) := by
  rw [evaluateTradeHandler_ok]
  simp only [interleave, List.foldl, List.map, stepAt, List.getElem?_cons_zero, List.set_cons_zero,
    Stage.step]
  cases (getUserDailyLimit M w req.UserID).2 with
  | error e => rfl
  | ok dailyLimit =>
    simp only [List.getElem?_cons_zero, List.set_cons_zero, Stage.step]
    cases (getDailyTradedAmount M (getUserDailyLimit M w req.UserID).1 req.UserID).2 with
    | error e => rfl
    | ok dailyTraded =>
      simp only [List.getElem?_cons_zero, List.set_cons_zero, Stage.step]
      split_ifs <;> rfl

/-- The world after the commit step of an approved request, except for
the log lines. -/
theorem commit_fields (M : Float64Ops) (w : World M) (u : String) (x : M.F) :
    (match (updateDailyTradedAmount M w u x).2 with
      | some e => logPrintf (updateDailyTradedAmount M w u x).1
          ("Failed to update daily traded amount: " ++ e)
      | none => (updateDailyTradedAmount M w u x).1).now = w.ticks.headD w.now
    ∧ (match (updateDailyTradedAmount M w u x).2 with
      | some e => logPrintf (updateDailyTradedAmount M w u x).1
          ("Failed to update daily traded amount: " ++ e)
      | none => (updateDailyTradedAmount M w u x).1).ticks = w.ticks.tail
    ∧ (match (updateDailyTradedAmount M w u x).2 with
      | some e => logPrintf (updateDailyTradedAmount M w u x).1
          ("Failed to update daily traded amount: " ++ e)
      | none => (updateDailyTradedAmount M w u x).1).redisLog
        = w.redisLog ++
            [RedisCmd.set (tradedKey u (w.ticks.headD w.now).day) (M.formatFloat x) ttl24h]
    ∧ (match (updateDailyTradedAmount M w u x).2 with
      | some e => logPrintf (updateDailyTradedAmount M w u x).1
          ("Failed to update daily traded amount: " ++ e)
      | none => (updateDailyTradedAmount M w u x).1).store
        = (match nextFault w.redisFaults with
          | some _ => w.store
          | none =>
            (tradedKey u (w.ticks.headD w.now).day,
              { val := M.formatFloat x,
                expireAt := some ((w.ticks.headD w.now).unix + ttl24h) }) :: w.store) := by
  rw [updateDailyTradedAmount_snd]
  cases h : nextFault w.redisFaults <;> refine ⟨rfl, rfl, rfl, ?_⟩ <;>
    simp only [updateDailyTradedAmount_fst, logPrintf, h]

theorem stateAt_zero (M : Float64Ops) (w : World M) (reqs : List (TradeRequest M))
    (schedule : List Nat) : stateAt M w reqs schedule 0 = (w, reqs.map Stage.received) := by
  simp [stateAt, interleave]

theorem stateAt_succ (M : Float64Ops) (w : World M) (reqs : List (TradeRequest M))
    (schedule : List Nat) (j i : Nat) (h : schedule[j]? = some i) :
    stateAt M w reqs schedule (j + 1) = stepAt M (stateAt M w reqs schedule j) i := by
  simp [stateAt, interleave, List.take_succ, h]

theorem stateAt_length (M : Float64Ops) (w : World M) (reqs : List (TradeRequest M))
    (schedule : List Nat) :
    stateAt M w reqs schedule schedule.length = interleave M w reqs schedule := by
  simp [stateAt]

theorem readBefore_step {M : Float64Ops} {w : World M} {reqs : List (TradeRequest M)}
    {schedule : List Nat} {j i : Nat} {r : TradeRequest M} {limit traded : M.F}
    (h : ReadBefore M w reqs schedule j i r limit traded) :
    ReadBefore M w reqs schedule (j + 1) i r limit traded := by
  obtain ⟨jr, h1, h2⟩ := h
  exact ⟨jr, by omega, h2⟩

theorem committedBefore_step {M : Float64Ops} {w : World M} {reqs : List (TradeRequest M)}
    {schedule : List Nat} {U : String} {lim : Except String M.F} {j : Nat} {cmd : RedisCmd}
    (h : CommittedBefore M w reqs schedule U lim j cmd) :
    CommittedBefore M w reqs schedule U lim (j + 1) cmd := by
  obtain ⟨i, r, limit, traded, jc, h1, h2⟩ := h
  exact ⟨i, r, limit, traded, jc, by omega, h2⟩

theorem tracked_step {M : Float64Ops} {w : World M} {reqs : List (TradeRequest M)}
    {schedule : List Nat} {lim : Except String M.F} {j i : Nat} {st : Stage M}
    (h : Stage.tracked M w reqs schedule lim j i st) :
    Stage.tracked M w reqs schedule lim (j + 1) i st := by
  cases st with
  | received req => exact h
  | limitRead req dailyLimit => exact h
  | tradedRead req dailyLimit dailyTraded => exact ⟨h.1, h.2.1, readBefore_step h.2.2⟩
  | committed req => exact h
  | responded resp => trivial

/-- One step of a concurrent run keeps its invariant. -/
theorem tracked_succ (M : Float64Ops) (w : World M) (reqs : List (TradeRequest M))
    (schedule : List Nat) (U : String) (lim : Option String)
    (hU : ∀ r ∈ reqs, r.UserID = U) (j i0 : Nat) (hj : schedule[j]? = some i0)
    (h : Tracked M w reqs schedule U lim j) : Tracked M w reqs schedule U lim (j + 1) := by
  have hnext := stateAt_succ M w reqs schedule j i0 hj
  obtain ⟨hclk, hlim, hstages, hlog⟩ := h
  have hclk1 := clock_advance hclk
  -- the parts of the invariant that a step without a new command and with the same store keeps
  have keep : ∀ (w1 : World M) (st1 : Stage M) (st0 : Stage M),
      (stateAt M w reqs schedule j).2[i0]? = some st0 →
      stateAt M w reqs schedule (j + 1)
        = (w1, (stateAt M w reqs schedule j).2.set i0 st1) →
      (∀ t ∈ w1.now :: w1.ticks, isDay t.day = true) →
      (∀ t : Int, lookupLive w1.store (limitKey U) t = lim) →
      Stage.tracked M w reqs schedule (readOr M M.lit10000 lim) (j + 1) i0 st1 →
      (∀ cmd ∈ w1.redisLog,
        cmd ∈ w.redisLog ∨ (∀ key v ttl, cmd ≠ RedisCmd.set key v ttl)
          ∨ CommittedBefore M w reqs schedule U (readOr M M.lit10000 lim) (j + 1) cmd) →
      Tracked M w reqs schedule U lim (j + 1) := by
    intro w1 st1 st0 hst0 heq h1 h2 h3 h4
    unfold Tracked
    rw [heq]
    refine ⟨h1, h2, ?_, h4⟩
    intro i st hi
    by_cases hii : i0 = i
    · subst hii
      have hlt : i0 < (stateAt M w reqs schedule j).2.length := by
        rcases List.getElem?_eq_some.mp hst0 with ⟨hlt, _⟩
        exact hlt
      simp only [List.getElem?_set_self hlt, Option.some.injEq] at hi
      rw [← hi]
      exact h3
    · simp only [List.getElem?_set_ne hii] at hi
      exact tracked_step (hstages i st hi)
  have oldlog : ∀ cmd ∈ (stateAt M w reqs schedule j).1.redisLog,
      cmd ∈ w.redisLog ∨ (∀ key v ttl, cmd ≠ RedisCmd.set key v ttl)
        ∨ CommittedBefore M w reqs schedule U (readOr M M.lit10000 lim) (j + 1) cmd := by
    intro cmd hcmd
    rcases hlog cmd hcmd with h1 | h1 | h1
    · exact Or.inl h1
    · exact Or.inr (Or.inl h1)
    · exact Or.inr (Or.inr (committedBefore_step h1))
  have getlog : ∀ (key : String), ∀ cmd ∈ (stateAt M w reqs schedule j).1.redisLog
        ++ [RedisCmd.get key],
      cmd ∈ w.redisLog ∨ (∀ key v ttl, cmd ≠ RedisCmd.set key v ttl)
        ∨ CommittedBefore M w reqs schedule U (readOr M M.lit10000 lim) (j + 1) cmd := by
    intro key cmd hcmd
    simp only [List.mem_append, List.mem_singleton] at hcmd
    rcases hcmd with hcmd | hcmd
    · exact oldlog cmd hcmd
    · exact Or.inr (Or.inl (fun key v ttl => by rw [hcmd]; simp))
  cases hs : (stateAt M w reqs schedule j).2[i0]? with
  | none =>
    have hsame : stateAt M w reqs schedule (j + 1) = stateAt M w reqs schedule j := by
      rw [hnext]; simp [stepAt, hs]
    unfold Tracked
    rw [hsame]
    exact ⟨hclk, hlim, fun i st hi => tracked_step (hstages i st hi), oldlog⟩
  | some st0 =>
    have htr := hstages i0 st0 hs
    have hstep : stateAt M w reqs schedule (j + 1)
        = ((Stage.step M (stateAt M w reqs schedule j).1 st0).1,
            (stateAt M w reqs schedule j).2.set i0
              (Stage.step M (stateAt M w reqs schedule j).1 st0).2) := by
      rw [hnext]; simp [stepAt, hs]
    cases st0 with
    | received req =>
      have hreq : reqs[i0]? = some req := htr
      have hr : req.UserID = U := hU req (List.getElem?_mem hreq)
      have hres := getUserDailyLimit_snd M (stateAt M w reqs schedule j).1 req.UserID
      simp only [Stage.step] at hstep
      cases hL : (getUserDailyLimit M (stateAt M w reqs schedule j).1 req.UserID).2 with
      | error e =>
        simp only [hL] at hstep
        exact keep _ _ _ hs hstep hclk hlim trivial (getlog _)
      | ok dailyLimit =>
        simp only [hL] at hstep
        refine keep _ _ _ hs hstep hclk hlim ⟨hreq, ?_⟩ (getlog _)
        rw [hL] at hres
        cases hf : nextFault (stateAt M w reqs schedule j).1.redisFaults with
        | some e => rw [hf] at hres; simp at hres
        | none =>
          rw [hf, hr, hlim] at hres
          exact hres.symm
    | limitRead req dailyLimit =>
      simp only [Stage.step] at hstep
      cases hT : (getDailyTradedAmount M (stateAt M w reqs schedule j).1 req.UserID).2 with
      | error e =>
        simp only [hT] at hstep
        exact keep _ _ _ hs hstep hclk1 hlim trivial (getlog _)
      | ok dailyTraded =>
        simp only [hT] at hstep
        exact keep _ _ _ hs hstep hclk1 hlim
          ⟨htr.1, htr.2, j, Nat.lt_succ_self j, hj, hs, hT⟩ (getlog _)
    | tradedRead req dailyLimit dailyTraded =>
      have hr : req.UserID = U := hU req (List.getElem?_mem htr.1)
      simp only [Stage.step] at hstep
      by_cases h1 : M.gt (M.add dailyTraded req.Amount) dailyLimit = true
      · simp only [h1, if_true] at hstep
        refine keep _ _ _ hs hstep ?_ ?_ trivial ?_
        · simpa only [logRiskEvent_now, logRiskEvent_ticks] using hclk1
        · simpa only [logRiskEvent_store] using hlim
        · simpa only [logRiskEvent_redisLog] using oldlog
      · rw [Bool.not_eq_true] at h1
        by_cases h2 : M.gt req.Amount (M.mul dailyLimit M.litHalf) = true
        · simp only [h1, h2, Bool.false_eq_true, if_true, if_false] at hstep
          refine keep _ _ _ hs hstep ?_ ?_ trivial ?_
          · simpa only [logRiskEvent_now, logRiskEvent_ticks] using hclk1
          · simpa only [logRiskEvent_store] using hlim
          · simpa only [logRiskEvent_redisLog] using oldlog
        · rw [Bool.not_eq_true] at h2
          simp only [h1, h2, Bool.false_eq_true, if_false] at hstep
          obtain ⟨hnow, hticks, hrlog, hstore⟩ :=
            commit_fields M (stateAt M w reqs schedule j).1 req.UserID
              (M.add dailyTraded req.Amount)
          refine keep _ _ _ hs hstep ?_ ?_ htr.1 ?_
          · simp only [hnow, hticks]
            exact hclk1
          · intro t
            simp only [hstore]
            cases nextFault (stateAt M w reqs schedule j).1.redisFaults with
            | some e => exact hlim t
            | none =>
              have hday := hclk ((stateAt M w reqs schedule j).1.ticks.headD
                (stateAt M w reqs schedule j).1.now) (headD_mem_cons _ _)
              have hk : limitKey U ≠ tradedKey req.UserID
                  ((stateAt M w reqs schedule j).1.ticks.headD
                    (stateAt M w reqs schedule j).1.now).day :=
                fun h => tradedKey_ne_limitKey hday h.symm
              simp only
              rw [lookupLive_cons_ne _ _ _ hk]
              exact hlim t
          · intro cmd hcmd
            simp only [hrlog, List.mem_append, List.mem_singleton] at hcmd
            rcases hcmd with hcmd | hcmd
            · exact oldlog cmd hcmd
            · refine Or.inr (Or.inr ⟨i0, req, dailyLimit, dailyTraded, j, Nat.lt_succ_self j, hj,
                htr.1, hs, htr.2.2, htr.2.1, h1, h2, by rw [hcmd, hr], ?_⟩)
              rw [hstep]
              simp only [hrlog]
              rw [hcmd]
    | committed req =>
      simp only [Stage.step] at hstep
      refine keep _ _ _ hs hstep ?_ ?_ trivial ?_
      · simpa only [logRiskEvent_now, logRiskEvent_ticks] using hclk1
      · simpa only [logRiskEvent_store] using hlim
      · simpa only [logRiskEvent_redisLog] using oldlog
    | responded resp =>
      simp only [Stage.step] at hstep
      exact keep _ _ _ hs hstep hclk hlim trivial oldlog

theorem tracked_all (M : Float64Ops) (w : World M) (reqs : List (TradeRequest M))
    (schedule : List Nat) (U : String) (lim : Option String)
    (hU : ∀ r ∈ reqs, r.UserID = U)
    (hdays : ∀ t ∈ w.now :: w.ticks, isDay t.day = true)
    (hlimit : ∀ t : Int, lookupLive w.store (limitKey U) t = lim) :
    ∀ j : Nat, j ≤ schedule.length → Tracked M w reqs schedule U lim j := by
  intro j
  induction j with
  | zero =>
    intro _
    unfold Tracked
    rw [stateAt_zero]
    refine ⟨hdays, hlimit, ?_, fun cmd hcmd => Or.inl hcmd⟩
    intro i st hi
    simp only [List.getElem?_map] at hi
    cases hr : reqs[i]? with
    | none => simp [hr] at hi
    | some r =>
      simp only [hr, Option.map_some', Option.some.injEq] at hi
      rw [← hi]
      exact hr
  | succ j ih =>
    intro hj
    have hlt : j < schedule.length := by omega
    exact tracked_succ M w reqs schedule U lim hU j schedule[j]
      (List.getElem?_eq_getElem hlt) (ih (by omega))

/-- C3 (amended): requests of one user handled concurrently, under every
interleaving of their round trips and whatever calls fail.  Every `SET`
the run sends is the commit of one of the requests, number `i`, taken at a
step `jc` of the schedule: the total it writes is `traded + amount` for the
amount of that very request, `traded` is what that request's own read of
the counter gave at its earlier step `jr`, and this total passed both rules
against the configured limit; so no commit stores a total above the limit.
The check is made against that one read only. -/
theorem interleaved_commits_validated (M : Float64Ops) (w : World M) (U : String)
    (reqs : List (TradeRequest M)) (lim : Option String) (schedule : List Nat)
    (hU : ∀ r ∈ reqs, r.UserID = U)
    (hdays : ∀ t ∈ w.now :: w.ticks, isDay t.day = true)
    (hlimit : ∀ t : Int, lookupLive w.store (limitKey U) t = lim) :
    ∀ (key v : String) (ttl : Int),
      RedisCmd.set key v ttl ∈ (interleave M w reqs schedule).1.redisLog →
      RedisCmd.set key v ttl ∈ w.redisLog
        ∨ ∃ (i : Nat) (r : TradeRequest M) (limit traded : M.F) (jr jc : Nat),
            reqs[i]? = some r
              ∧ jr < jc ∧ jc < schedule.length
              ∧ schedule[jr]? = some i ∧ schedule[jc]? = some i
              ∧ (stateAt M w reqs schedule jr).2[i]? = some (Stage.limitRead r limit)
              ∧ (getDailyTradedAmount M (stateAt M w reqs schedule jr).1 r.UserID).2
                  = Except.ok traded
              ∧ (stateAt M w reqs schedule jc).2[i]? = some (Stage.tradedRead r limit traded)
              ∧ (stateAt M w reqs schedule (jc + 1)).1.redisLog
                  = (stateAt M w reqs schedule jc).1.redisLog ++ [RedisCmd.set key v ttl]
              ∧ readOr M M.lit10000 lim = Except.ok limit
              ∧ key = tradedKey U ((stateAt M w reqs schedule jc).1.ticks.headD
                  (stateAt M w reqs schedule jc).1.now).day
              ∧ v = M.formatFloat (M.add traded r.Amount)
              ∧ M.gt (M.add traded r.Amount) limit = false
              ∧ M.gt r.Amount (M.mul limit M.litHalf) = false := by
  have h := tracked_all M w reqs schedule U lim hU hdays hlimit schedule.length (Nat.le_refl _)
  intro key v ttl hmem
  rw [← stateAt_length] at hmem
  rcases h.2.2.2 _ hmem with h1 | h1 | h1
  · exact Or.inl h1
  · exact absurd rfl (h1 key v ttl)
  · obtain ⟨i, r, limit, traded, jc, hjc, hsched, hreq, hstage, ⟨jr, hjr, hsr, hstr, hread⟩,
      hl, hv1, hv2, hcmd, hlogc⟩ := h1
    injection hcmd with hk hv _
    exact Or.inr ⟨i, r, limit, traded, jr, jc, hreq, hjr, hjc, hsr, hsched, hstr, hread, hstage,
      hlogc, hl, hk, hv, hv1, hv2⟩

/-- C1 (amended): when both reads succeed with `limit` and `traded`, the
handler answers by the rules in order, first match winning, evaluated in
`float64`: the limit-exceeded rejection when the `float64` sum
`traded + amount` is greater than `limit` (whatever the 50% rule says),
otherwise the large-trade rejection when `amount` is greater than the
`float64` product `limit * 0.5`, otherwise approval without a reason; the
comparisons are strict, so a sum equal to the limit and an amount equal to
half the limit are approved.  The answer is the decision of the exact
`Evaluate limit traded amount` whenever the sum and the product are formed
without rounding and the two comparisons are those of the exact values. -/
theorem evaluateTradeHandler_eq_Evaluate (M : Float64Ops) (w : World M)
    (req : TradeRequest M) (limit traded : M.F)
    (hL : (getUserDailyLimit M w req.UserID).2 = Except.ok limit)
    (hT : (getDailyTradedAmount M (getUserDailyLimit M w req.UserID).1 req.UserID).2
      = Except.ok traded) :
    (M.gt (M.add traded req.Amount) limit = true →
        (evaluateTradeHandler M w (Except.ok req)).2
          = HttpResponse.json { Approved := false, Reason := "Daily trading limit exceeded" })
      ∧ (M.gt (M.add traded req.Amount) limit = false →
          M.gt req.Amount (M.mul limit M.litHalf) = true →
          (evaluateTradeHandler M w (Except.ok req)).2
            = HttpResponse.json
                { Approved := false,
                  Reason := "Trade amount exceeds 50% of daily limit, requires manual approval" })
      ∧ (M.gt (M.add traded req.Amount) limit = false →
          M.gt req.Amount (M.mul limit M.litHalf) = false →
          (evaluateTradeHandler M w (Except.ok req)).2
            = HttpResponse.json { Approved := true, Reason := "" })
      ∧ ((∀ x : M.F, M.gt x x = false) →
          (M.add traded req.Amount = limit → M.gt req.Amount (M.mul limit M.litHalf) = false →
            (evaluateTradeHandler M w (Except.ok req)).2
              = HttpResponse.json { Approved := true, Reason := "" })
          ∧ (req.Amount = M.mul limit M.litHalf → M.gt (M.add traded req.Amount) limit = false →
            (evaluateTradeHandler M w (Except.ok req)).2
              = HttpResponse.json { Approved := true, Reason := "" }))
      ∧ (∀ val : M.F → ℚ,
          val (M.add traded req.Amount) = val traded + val req.Amount →
          val (M.mul limit M.litHalf) = val limit * (1 / 2) →
          M.gt (M.add traded req.Amount) limit
            = decide (val (M.add traded req.Amount) > val limit) →
          M.gt req.Amount (M.mul limit M.litHalf)
            = decide (val req.Amount > val (M.mul limit M.litHalf)) →
          (evaluateTradeHandler M w (Except.ok req)).2
            = (Evaluate (val limit) (val traded) (val req.Amount)).response) := by
  have key : (evaluateTradeHandler M w (Except.ok req)).2
      = if M.gt (M.add traded req.Amount) limit then
          HttpResponse.json { Approved := false, Reason := "Daily trading limit exceeded" }
        else if M.gt req.Amount (M.mul limit M.litHalf) then
          HttpResponse.json
            { Approved := false,
              Reason := "Trade amount exceeds 50% of daily limit, requires manual approval" }
        else HttpResponse.json { Approved := true, Reason := "" } := by
    rw [evaluateTradeHandler_snd, hL]
    simp only [hT]
  refine ⟨?_, ?_, ?_, ?_, ?_⟩
  · intro h1
    rw [key]; simp [h1]
  · intro h1 h2
    rw [key]; simp [h1, h2]
  · intro h1 h2
    rw [key]; simp [h1, h2]
  · intro hirr
    constructor
    · intro h1 h2
      have h3 : M.gt (M.add traded req.Amount) limit = false := by rw [h1]; exact hirr limit
      rw [key]; simp [h3, h2]
    · intro h1 h2
      have h3 : M.gt req.Amount (M.mul limit M.litHalf) = false := by rw [← h1]; exact hirr _
      rw [key]; simp [h3, h2]
  · intro val hsum hhalf hgt1 hgt2
    rw [key, hgt1, hgt2, hsum, hhalf]
    simp only [decide_eq_true_eq, Evaluate]
    split_ifs <;> rfl

/-! ### The theorems at concrete inputs -/

/-- C1 (amended) at concrete inputs, in binary64: the examples of the
specification with the limit at 10000, where no sum or product is
rounded and the handler answers as the exact `Evaluate` does. -/
theorem evaluateTradeHandler_eq_Evaluate_witness :
    ((evaluateTradeHandler binary64Ops (floatWorld "10000" "0")
          (Except.ok (floatOrder (whole 4000)))).2
        = (Evaluate 10000 0 4000).response
      ∧ (Evaluate 10000 0 4000).response = HttpResponse.json { Approved := true, Reason := "" })
      ∧ ((evaluateTradeHandler binary64Ops (floatWorld "10000" "7000")
          (Except.ok (floatOrder (whole 4000)))).2
        = (Evaluate 10000 7000 4000).response
      ∧ (Evaluate 10000 7000 4000).response
        = HttpResponse.json { Approved := false, Reason := "Daily trading limit exceeded" })
      ∧ ((evaluateTradeHandler binary64Ops (floatWorld "10000" "0")
          (Except.ok (floatOrder (whole 6000)))).2
        = (Evaluate 10000 0 6000).response
      ∧ (Evaluate 10000 0 6000).response
        = HttpResponse.json
            { Approved := false,
              Reason := "Trade amount exceeds 50% of daily limit, requires manual approval" })
      ∧ ((evaluateTradeHandler binary64Ops (floatWorld "10000" "0")
          (Except.ok (floatOrder (whole 5000)))).2
        = (Evaluate 10000 0 5000).response
      ∧ (Evaluate 10000 0 5000).response
        = HttpResponse.json { Approved := true, Reason := "" }) := by
  have hval : ∀ n : Int, B64.toRat (B64.fin { mant := n, scale := 0 }) = (n : ℚ) := by
    intro n; simp [B64.toRat, Dec.toRat]
  refine ⟨⟨?_, ?_⟩, ⟨?_, ?_⟩, ⟨?_, ?_⟩, ⟨?_, ?_⟩⟩
  · have h := (evaluateTradeHandler_eq_Evaluate binary64Ops (floatWorld "10000" "0")
      (floatOrder (whole 4000)) (B64.fin { mant := 10000, scale := 0 })
      (B64.fin { mant := 0, scale := 0 }) rfl rfl).2.2.2.2 B64.toRat
    have e1 : binary64Ops.add (B64.fin { mant := 0, scale := 0 })
        (floatOrder (whole 4000)).Amount = B64.fin { mant := 4000, scale := 0 } := rfl
    have e2 : binary64Ops.mul (B64.fin { mant := 10000, scale := 0 }) binary64Ops.litHalf
        = B64.fin { mant := 5000, scale := 0 } := rfl
    have e3 : (floatOrder (whole 4000)).Amount = B64.fin { mant := 4000, scale := 0 } := rfl
    have e4 : binary64Ops.gt (B64.fin { mant := 4000, scale := 0 })
        (B64.fin { mant := 10000, scale := 0 }) = false := rfl
    have e5 : binary64Ops.gt (B64.fin { mant := 4000, scale := 0 })
        (B64.fin { mant := 5000, scale := 0 }) = false := rfl
    rw [e1, e2, e3, e4, e5] at h
    simp only [hval] at h
    have h2 := h (by norm_num) (by norm_num) (by norm_num) (by norm_num)
    simpa using h2
  · norm_num [Evaluate, RiskDecision.response, Reason.text]
  · have h := (evaluateTradeHandler_eq_Evaluate binary64Ops (floatWorld "10000" "7000")
      (floatOrder (whole 4000)) (B64.fin { mant := 10000, scale := 0 })
      (B64.fin { mant := 7000, scale := 0 }) rfl rfl).2.2.2.2 B64.toRat
    have e1 : binary64Ops.add (B64.fin { mant := 7000, scale := 0 })
        (floatOrder (whole 4000)).Amount = B64.fin { mant := 11000, scale := 0 } := rfl
    have e2 : binary64Ops.mul (B64.fin { mant := 10000, scale := 0 }) binary64Ops.litHalf
        = B64.fin { mant := 5000, scale := 0 } := rfl
    have e3 : (floatOrder (whole 4000)).Amount = B64.fin { mant := 4000, scale := 0 } := rfl
    have e4 : binary64Ops.gt (B64.fin { mant := 11000, scale := 0 })
        (B64.fin { mant := 10000, scale := 0 }) = true := rfl
    have e5 : binary64Ops.gt (B64.fin { mant := 4000, scale := 0 })
        (B64.fin { mant := 5000, scale := 0 }) = false := rfl
    rw [e1, e2, e3, e4, e5] at h
    simp only [hval] at h
    have h2 := h (by norm_num) (by norm_num) (by norm_num) (by norm_num)
    simpa using h2
  · norm_num [Evaluate, RiskDecision.response, Reason.text]
  · have h := (evaluateTradeHandler_eq_Evaluate binary64Ops (floatWorld "10000" "0")
      (floatOrder (whole 6000)) (B64.fin { mant := 10000, scale := 0 })
      (B64.fin { mant := 0, scale := 0 }) rfl rfl).2.2.2.2 B64.toRat
    have e1 : binary64Ops.add (B64.fin { mant := 0, scale := 0 })
        (floatOrder (whole 6000)).Amount = B64.fin { mant := 6000, scale := 0 } := rfl
    have e2 : binary64Ops.mul (B64.fin { mant := 10000, scale := 0 }) binary64Ops.litHalf
        = B64.fin { mant := 5000, scale := 0 } := rfl
    have e3 : (floatOrder (whole 6000)).Amount = B64.fin { mant := 6000, scale := 0 } := rfl
    have e4 : binary64Ops.gt (B64.fin { mant := 6000, scale := 0 })
        (B64.fin { mant := 10000, scale := 0 }) = false := rfl
    have e5 : binary64Ops.gt (B64.fin { mant := 6000, scale := 0 })
        (B64.fin { mant := 5000, scale := 0 }) = true := rfl
    rw [e1, e2, e3, e4, e5] at h
    simp only [hval] at h
    have h2 := h (by norm_num) (by norm_num) (by norm_num) (by norm_num)
    simpa using h2
  · norm_num [Evaluate, RiskDecision.response, Reason.text]
  · have h := (evaluateTradeHandler_eq_Evaluate binary64Ops (floatWorld "10000" "0")
      (floatOrder (whole 5000)) (B64.fin { mant := 10000, scale := 0 })
      (B64.fin { mant := 0, scale := 0 }) rfl rfl).2.2.2.2 B64.toRat
    have e1 : binary64Ops.add (B64.fin { mant := 0, scale := 0 })
        (floatOrder (whole 5000)).Amount = B64.fin { mant := 5000, scale := 0 } := rfl
    have e2 : binary64Ops.mul (B64.fin { mant := 10000, scale := 0 }) binary64Ops.litHalf
        = B64.fin { mant := 5000, scale := 0 } := rfl
    have e3 : (floatOrder (whole 5000)).Amount = B64.fin { mant := 5000, scale := 0 } := rfl
    have e4 : binary64Ops.gt (B64.fin { mant := 5000, scale := 0 })
        (B64.fin { mant := 10000, scale := 0 }) = false := rfl
    have e5 : binary64Ops.gt (B64.fin { mant := 5000, scale := 0 })
        (B64.fin { mant := 5000, scale := 0 }) = false := rfl
    rw [e1, e2, e3, e4, e5] at h
    simp only [hval] at h
    have h2 := h (by norm_num) (by norm_num) (by norm_num) (by norm_num)
    simpa using h2
  · norm_num [Evaluate, RiskDecision.response, Reason.text]

/-- C1 fails as stated.  In binary64, with the limit and the counter both
at `2 ^ 53` and an order of 1: the sum `2 ^ 53 + 1` rounds to `2 ^ 53`, the
handler approves, and the exact `Evaluate` rejects because the limit is
exceeded.  With the texts 0.3 and 0.2 and an order of 0.1 the handler
rejects where the exact rules on the decimals approve the tie. -/
theorem float_sum_rounds_to_limit :
    ((getUserDailyLimit binary64Ops (floatWorld "9007199254740992" "9007199254740992") "u1").2
        = Except.ok twoTo53
      ∧ (getDailyTradedAmount binary64Ops
          (getUserDailyLimit binary64Ops (floatWorld "9007199254740992" "9007199254740992")
            "u1").1 "u1").2 = Except.ok twoTo53
      ∧ B64.toRat twoTo53 = 9007199254740992
      ∧ B64.toRat (whole 1) = 1
      ∧ binary64Ops.add twoTo53 (whole 1) = twoTo53
      ∧ (evaluateTradeHandler binary64Ops (floatWorld "9007199254740992" "9007199254740992")
          (Except.ok (floatOrder (whole 1)))).2
        = HttpResponse.json { Approved := true, Reason := "" }
      ∧ (Evaluate 9007199254740992 9007199254740992 1).response
        = HttpResponse.json { Approved := false, Reason := "Daily trading limit exceeded" })
      ∧ (B64.parse "0.1" = Except.ok tenth
        ∧ (evaluateTradeHandler binary64Ops (floatWorld "0.3" "0.2")
            (Except.ok (floatOrder tenth))).2
          = HttpResponse.json { Approved := false, Reason := "Daily trading limit exceeded" }
        ∧ (Evaluate (3 / 10) (2 / 10) (1 / 10)).response
          = HttpResponse.json { Approved := true, Reason := "" }) := by
  refine ⟨⟨rfl, rfl, ?_, ?_, rfl, rfl, ?_⟩, rfl, rfl, ?_⟩
  · norm_num [twoTo53, B64.toRat, Dec.toRat]
  · have e : whole 1 = B64.fin { mant := 1, scale := 0 } := rfl
    rw [e]
    norm_num [B64.toRat, Dec.toRat]
  · norm_num [Evaluate, RiskDecision.response, Reason.text]
  · norm_num [Evaluate, RiskDecision.response, Reason.text]

/-- C2 (amended) at a concrete input.  Four orders on one day: 4000 is
approved, 6000 is a large trade, 5000 is approved, 2000 would exceed the
limit; the counter reads 9000. -/
theorem daily_traded_is_approved_sum_witness :
    (handleAll decimalOps dayWorld dayOrders).2.map HttpResponse.approved
        = [true, false, true, false]
      ∧ (getDailyTradedAmount decimalOps (handleAll decimalOps dayWorld dayOrders).1 "u1").2
        = Except.ok (dec 9000)
      ∧ decimalOps.gt decimalOps.lit0 (dec 9000) = false
      ∧ decimalOps.gt (dec 9000) (dec 10000) = false :=
  have h := daily_traded_is_approved_sum decimalOps dayWorld "u1" "2024-03-01" 1709251200 none
    dayOrders (by decide) (by decide) (by decide) rfl (by decide) (by decide)
    (fun _ _ _ => rfl) decimalOps_roundtrip decimalOps_zero decimalOps_add_nonneg 4
  ⟨by decide, h.1, h.2.1, h.2.2.1 (dec 10000) rfl (by decide)⟩

/-- C2 fails as stated.  With a stored limit of -5 the only order is
rejected and the counter reads 0, which is above the limit. -/
theorem negative_limit_below_counter :
    (getUserDailyLimit decimalOps (limitWorld "-5") "u1").2 = Except.ok (dec (-5))
      ∧ (handleAll decimalOps (limitWorld "-5") [order 1]).2
        = [HttpResponse.json { Approved := false, Reason := "Daily trading limit exceeded" }]
      ∧ (getDailyTradedAmount decimalOps (handleAll decimalOps (limitWorld "-5") [order 1]).1
          "u1").2 = Except.ok (dec 0)
      ∧ decimalOps.gt (dec 0) (dec (-5)) = true :=
  ⟨rfl, by decide, rfl, by decide⟩

/-- C3 (amended) at a concrete input.  Three orders of 4000 against the
default limit, every round trip of each before the next round trip of any:
the commit that is in the log is that of one of the three orders, on the
total its own read gave. -/
theorem interleaved_commits_validated_witness :
    RedisCmd.set "user:u1:traded:2024-03-01" "4000" 86400 ∈ freshWorld.redisLog
      ∨ ∃ (i : Nat) (r : TradeRequest decimalOps) (limit traded : decimalOps.F) (jr jc : Nat),
          threeOrders[i]? = some r
            ∧ jr < jc ∧ jc < roundRobin.length
            ∧ roundRobin[jr]? = some i ∧ roundRobin[jc]? = some i
            ∧ (stateAt decimalOps freshWorld threeOrders roundRobin jr).2[i]?
                = some (Stage.limitRead r limit)
            ∧ (getDailyTradedAmount decimalOps
                (stateAt decimalOps freshWorld threeOrders roundRobin jr).1 r.UserID).2
                = Except.ok traded
            ∧ (stateAt decimalOps freshWorld threeOrders roundRobin jc).2[i]?
                = some (Stage.tradedRead r limit traded)
            ∧ (stateAt decimalOps freshWorld threeOrders roundRobin (jc + 1)).1.redisLog
                = (stateAt decimalOps freshWorld threeOrders roundRobin jc).1.redisLog
                  ++ [RedisCmd.set "user:u1:traded:2024-03-01" "4000" 86400]
            ∧ readOr decimalOps decimalOps.lit10000 none = Except.ok limit
            ∧ "user:u1:traded:2024-03-01"
                = tradedKey "u1"
                    ((stateAt decimalOps freshWorld threeOrders roundRobin jc).1.ticks.headD
                      (stateAt decimalOps freshWorld threeOrders roundRobin jc).1.now).day
            ∧ "4000" = decimalOps.formatFloat (decimalOps.add traded r.Amount)
            ∧ decimalOps.gt (decimalOps.add traded r.Amount) limit = false
            ∧ decimalOps.gt r.Amount (decimalOps.mul limit decimalOps.litHalf) = false :=
  interleaved_commits_validated decimalOps freshWorld "u1" threeOrders none roundRobin
    (by decide) (by decide) (fun _ => rfl) "user:u1:traded:2024-03-01" "4000" 86400 (by decide)

/-- C3 fails as stated.  Three concurrent orders of 4000 against the
default limit of 10000 are all approved, one more than `10000 / 4000`, and
each commits 4000: the approved amounts add up to 12000, which is above
the limit, while the counter reads 4000. -/
theorem concurrent_orders_all_approved :
    (interleave decimalOps freshWorld threeOrders roundRobin).2.map (Stage.response decimalOps)
        = [some (HttpResponse.json { Approved := true, Reason := "" }),
            some (HttpResponse.json { Approved := true, Reason := "" }),
            some (HttpResponse.json { Approved := true, Reason := "" })]
      ∧ (interleave decimalOps freshWorld threeOrders roundRobin).1.redisLog
        = [RedisCmd.get "user:u1:daily_limit", RedisCmd.get "user:u1:daily_limit",
            RedisCmd.get "user:u1:daily_limit",
            RedisCmd.get "user:u1:traded:2024-03-01", RedisCmd.get "user:u1:traded:2024-03-01",
            RedisCmd.get "user:u1:traded:2024-03-01",
            RedisCmd.set "user:u1:traded:2024-03-01" "4000" 86400,
            RedisCmd.set "user:u1:traded:2024-03-01" "4000" 86400,
            RedisCmd.set "user:u1:traded:2024-03-01" "4000" 86400]
      ∧ (getDailyTradedAmount decimalOps
          (interleave decimalOps freshWorld threeOrders roundRobin).1 "u1").2
        = Except.ok (dec 4000)
      ∧ (10000 : Nat) / 4000 = 2
      ∧ decimalOps.gt (decimalOps.add (decimalOps.add (dec 4000) (dec 4000)) (dec 4000))
          decimalOps.lit10000 = true :=
  ⟨by decide, by decide, rfl, by decide, by decide⟩

/-- C4 at concrete inputs: a refused connection on the first read, and on
the second. -/
theorem evaluateTradeHandler_read_failure_witness :
    ((evaluateTradeHandler decimalOps (faultyWorld [some "connection refused"])
          (Except.ok (order 4000))).2 = HttpResponse.error 500 "Failed to get user limits"
        ∧ (evaluateTradeHandler decimalOps (faultyWorld [some "connection refused"])
          (Except.ok (order 4000))).1.store = []
        ∧ (evaluateTradeHandler decimalOps (faultyWorld [some "connection refused"])
          (Except.ok (order 4000))).1.redisLog = [RedisCmd.get "user:u1:daily_limit"])
      ∧ ((evaluateTradeHandler decimalOps (faultyWorld [none, some "connection refused"])
          (Except.ok (order 4000))).2 = HttpResponse.error 500 "Failed to get daily traded amount"
        ∧ (evaluateTradeHandler decimalOps (faultyWorld [none, some "connection refused"])
          (Except.ok (order 4000))).1.store = []
        ∧ (evaluateTradeHandler decimalOps (faultyWorld [none, some "connection refused"])
          (Except.ok (order 4000))).1.redisLog
            = [RedisCmd.get "user:u1:daily_limit", RedisCmd.get "user:u1:traded:2024-03-01"]) :=
  have h1 := (evaluateTradeHandler_read_failure decimalOps
    (faultyWorld [some "connection refused"]) (order 4000) "connection refused").1 rfl
  have h2 := (evaluateTradeHandler_read_failure decimalOps
    (faultyWorld [none, some "connection refused"]) (order 4000) "connection refused").2
    (dec 10000) rfl rfl
  ⟨⟨h1.1, h1.2.1, h1.2.2.1⟩, ⟨h2.1, h2.2.1, h2.2.2.1⟩⟩

/-- C5 at a concrete input.  An approved order while the broker is down:
one message, keyed by the user, and the same response. -/
theorem evaluateTradeHandler_publishes_once_witness :
    (evaluateTradeHandler decimalOps
        { freshWorld with kafkaFaults := [some "broker not available"] }
        (Except.ok (order 4000))).2 = HttpResponse.json { Approved := true, Reason := "" }
      ∧ (∃ (reason : String) (timestamp : Int),
          (evaluateTradeHandler decimalOps
              { freshWorld with kafkaFaults := [some "broker not available"] }
              (Except.ok (order 4000))).1.kafkaLog
            = [] ++ [riskMessage decimalOps (order 4000) "APPROVED" reason timestamp]
          ∧ (riskMessage decimalOps (order 4000) "APPROVED" reason timestamp).Key = "u1")
      ∧ (evaluateTradeHandler decimalOps
          { { freshWorld with kafkaFaults := [some "broker not available"] } with
            kafkaFaults := [] }
          (Except.ok (order 4000))).2 = HttpResponse.json { Approved := true, Reason := "" } :=
  have h := evaluateTradeHandler_publishes_once decimalOps
    { freshWorld with kafkaFaults := [some "broker not available"] } (order 4000)
    { Approved := true, Reason := "" } rfl
  ⟨rfl, h.1, h.2 []⟩

/-- C6 (amended) at concrete inputs: reads of a configured limit, an
unset limit, a stored total, an absent total, and a refused connection. -/
theorem reads_result_witness :
    (getUserDailyLimit decimalOps (limitWorld "2500") "u1").2 = decimalOps.parseFloat "2500"
      ∧ (getUserDailyLimit decimalOps freshWorld "u1").2 = Except.ok decimalOps.lit10000
      ∧ (getDailyTradedAmount decimalOps (tradedWorld "7000") "u1").2
        = decimalOps.parseFloat "7000"
      ∧ (getDailyTradedAmount decimalOps freshWorld "u1").2 = Except.ok decimalOps.lit0
      ∧ (getUserDailyLimit decimalOps (faultyWorld [some "connection refused"]) "u1").2
        = Except.error "connection refused" :=
  ⟨(reads_result decimalOps (limitWorld "2500") "u1").1.2.2.1 "2500" rfl rfl,
    (reads_result decimalOps freshWorld "u1").1.2.1 rfl rfl,
    (reads_result decimalOps (tradedWorld "7000") "u1").2.2.2.1 "7000" rfl rfl,
    (reads_result decimalOps freshWorld "u1").2.2.1 rfl rfl,
    (reads_result decimalOps (faultyWorld [some "connection refused"]) "u1").1.1
      "connection refused" rfl⟩

/-- C6 fails as stated.  The limit key holds `abc`: Redis answers, and
the read fails; the handler answers with HTTP 500. -/
theorem unparsable_limit_fails :
    nextFault (limitWorld "abc").redisFaults = none
      ∧ lookupLive (limitWorld "abc").store (limitKey "u1") (limitWorld "abc").now.unix
        = some "abc"
      ∧ (getUserDailyLimit decimalOps (limitWorld "abc") "u1").2
        = Except.error "strconv.ParseFloat: invalid syntax"
      ∧ (evaluateTradeHandler decimalOps (limitWorld "abc") (Except.ok (order 4000))).2
        = HttpResponse.error 500 "Failed to get user limits" :=
  ⟨rfl, rfl, rfl, rfl⟩

/-- C7 at a concrete input.  A total of 4000 is committed for the user
`u1:traded` on 1 March 2024:
that user reads it back later that day and reads 0 the day after; user
`u1` reads 0 on both days and keeps the default limit. -/
theorem committed_total_read_back_witness :
    (getDailyTradedAmount decimalOps
        (atInstant (updateDailyTradedAmount decimalOps freshWorld "u1:traded" (dec 4000)).1
          beforeMidnight) "u1:traded").2 = Except.ok (dec 4000)
      ∧ (getDailyTradedAmount decimalOps
        (atInstant (updateDailyTradedAmount decimalOps freshWorld "u1:traded" (dec 4000)).1
          afterMidnight) "u1:traded").2 = Except.ok decimalOps.lit0
      ∧ (getDailyTradedAmount decimalOps
        (atInstant (updateDailyTradedAmount decimalOps freshWorld "u1:traded" (dec 4000)).1
          beforeMidnight) "u1").2
        = (getDailyTradedAmount decimalOps (atInstant freshWorld beforeMidnight) "u1").2
      ∧ (getUserDailyLimit decimalOps
        (atInstant (updateDailyTradedAmount decimalOps freshWorld "u1:traded" (dec 4000)).1
          beforeMidnight) "u1").2
        = (getUserDailyLimit decimalOps (atInstant freshWorld beforeMidnight) "u1").2
      ∧ tradedKey "u1:traded" "2024-03-01" ≠ limitKey "u1" :=
  have h := committed_total_read_back decimalOps freshWorld "u1:traded" "2024-03-01" (dec 4000)
    (by decide) rfl rfl (decimalOps_roundtrip _)
  ⟨h.2.2.1 beforeMidnight rfl (by decide),
    h.2.2.2.2.1 afterMidnight (by decide) (by decide) rfl,
    h.2.2.2.1 "u1" beforeMidnight (by decide) (Or.inl (by decide)),
    h.2.2.2.2.2 "u1" beforeMidnight,
    h.2.1 "u1:traded" "2024-03-01" "u1" (by decide)⟩

/-- C8 (amended) at concrete inputs: a body that is not JSON, and an
order with a negative amount. -/
theorem evaluateTradeHandler_decode_witness :
    evaluateTradeHandler decimalOps freshWorld (Except.error "unexpected end of JSON input")
        = (freshWorld, HttpResponse.error 400 "unexpected end of JSON input")
      ∧ ∃ rest : List RedisCmd,
          (evaluateTradeHandler decimalOps freshWorld (Except.ok negativeOrder)).1.redisLog
            = freshWorld.redisLog ++ RedisCmd.get (limitKey negativeOrder.UserID) :: rest :=
  ⟨(evaluateTradeHandler_decode decimalOps freshWorld).1 "unexpected end of JSON input",
    ((evaluateTradeHandler_decode decimalOps freshWorld).2 negativeOrder).2⟩

/-- C8 fails as stated.  An order with amount -100 and price 0 is not
answered with 400: the store is read, the order is approved and the
counter is set to -100. -/
theorem nonpositive_amount_is_evaluated :
    decimalOps.gt negativeOrder.Amount decimalOps.lit0 = false
      ∧ decimalOps.gt negativeOrder.Price decimalOps.lit0 = false
      ∧ (evaluateTradeHandler decimalOps freshWorld (Except.ok negativeOrder)).2
        = HttpResponse.json { Approved := true, Reason := "" }
      ∧ (evaluateTradeHandler decimalOps freshWorld (Except.ok negativeOrder)).1.redisLog
        = [RedisCmd.get "user:u1:daily_limit", RedisCmd.get "user:u1:traded:2024-03-01",
            RedisCmd.set "user:u1:traded:2024-03-01" "-100" 86400]
      ∧ lookupLive (evaluateTradeHandler decimalOps freshWorld (Except.ok negativeOrder)).1.store
          "user:u1:traded:2024-03-01" morning.unix = some "-100" :=
  ⟨by decide, by decide, by decide, by decide, by decide⟩

/-- C9 (amended) at a concrete input: an approved order with both clock
readings on 1 March 2024. -/
theorem evaluateTradeHandler_commit_day_witness :
    (evaluateTradeHandler decimalOps dayWorld (Except.ok (order 4000))).1.redisLog
        = [] ++
            [RedisCmd.get (limitKey "u1"), RedisCmd.get (tradedKey "u1" "2024-03-01"),
              RedisCmd.set (tradedKey "u1" "2024-03-01")
                (decimalOps.formatFloat (decimalOps.add (dec 0) (dec 4000))) ttl24h]
      ∧ tradedKey "u1" "2024-03-01" = tradedKey "u1" "2024-03-01" :=
  have h := evaluateTradeHandler_commit_day decimalOps dayWorld (order 4000) (dec 10000) (dec 0)
    { unix := 1709280000, day := "2024-03-01" } { unix := 1709280600, day := "2024-03-01" }
    ((List.range 10).map fun i =>
      { unix := 1709281200 + 600 * (i : Int), day := "2024-03-01" })
    (by decide) rfl rfl (by decide) (by decide)
  ⟨h.1, h.2.2 rfl⟩

/-- C9 fails as stated.  The clock passes midnight between the read and
the commit: the counter of 1 March (3000) is read, and 3000 + 1000 is
committed as the counter of 2 March, on which nothing had been traded. -/
theorem commit_on_next_day :
    (evaluateTradeHandler decimalOps midnightWorld (Except.ok (order 1000))).2
        = HttpResponse.json { Approved := true, Reason := "" }
      ∧ (evaluateTradeHandler decimalOps midnightWorld (Except.ok (order 1000))).1.redisLog
        = [RedisCmd.get "user:u1:daily_limit", RedisCmd.get "user:u1:traded:2024-03-01",
            RedisCmd.set "user:u1:traded:2024-03-02" "4000" 86400]
      ∧ lookupLive midnightWorld.store "user:u1:traded:2024-03-02" afterMidnight.unix = none
      ∧ (getDailyTradedAmount decimalOps
          (atInstant (evaluateTradeHandler decimalOps midnightWorld (Except.ok (order 1000))).1
            afterMidnight) "u1").2 = Except.ok (dec 4000) :=
  ⟨by decide, by decide, by decide, rfl⟩

/-- C10 at a concrete input: the commit of an approved order times
out. -/
theorem evaluateTradeHandler_commit_failure_witness :
    (evaluateTradeHandler decimalOps (faultyWorld [none, none, some "i/o timeout"])
        (Except.ok (order 4000))).2 = HttpResponse.json { Approved := true, Reason := "" }
      ∧ (evaluateTradeHandler decimalOps (faultyWorld [none, none, some "i/o timeout"])
        (Except.ok (order 4000))).1.store
        = (faultyWorld [none, none, some "i/o timeout"]).store
      ∧ "Failed to update daily traded amount: " ++ "i/o timeout"
        ∈ (evaluateTradeHandler decimalOps (faultyWorld [none, none, some "i/o timeout"])
          (Except.ok (order 4000))).1.logs
      ∧ ∃ timestamp : Int,
          (evaluateTradeHandler decimalOps (faultyWorld [none, none, some "i/o timeout"])
            (Except.ok (order 4000))).1.kafkaLog
          = (faultyWorld [none, none, some "i/o timeout"]).kafkaLog
            ++ [riskMessage decimalOps (order 4000) "APPROVED" "" timestamp] :=
  evaluateTradeHandler_commit_failure decimalOps (faultyWorld [none, none, some "i/o timeout"])
    (order 4000) (dec 10000) (dec 0) "i/o timeout" rfl rfl (by decide) (by decide) rfl

end RiskManagement
